import Mathlib

/-!
The VICE mainlock (`vice/src/mainlock.c`)

The mainlock is one recursive pthread mutex, two atomic flags and the identity of
the emulator ("vice") thread, with a handful of entry points called by the vice
thread and by the UI thread.

Embedding.  The shared variables of `mainlock.c` form the record `State`.  Each C
function is a value of `Prog`, written in continuation-passing style: the argument
`k` of a function is what its caller does after the function has returned.  A `Prog`
is a tree of atomic steps (one access to a shared variable, or one call of an
external primitive), so the same definition gives

* the behaviour of one thread running undisturbed (`Prog.run`, `Prog.trace`), and
* the behaviour of any number of threads whose atomic steps are interleaved
  arbitrarily (`Config.next`, `Config.exec`), and
* the behaviour of sequences of whole calls, each running up to its return, the end
  of its thread or a wait for the mutex (`Config.move`, `Config.play`).

The file is compiled with `USE_VICE_THREAD`; the `DEBUG` macro is the parameter
`debug` of the two functions that test it.

After the mainlock come three small pieces of glue code: the modifier names of the
hotkeys (`vhkkeysyms.c`, namespace `Hotkeys`), the `-VICIIborders` command-line option
(`vicii-cmdline-options.c`, namespace `Vicii`) and the common memory configurations of
the VIC-20 menu (`vic20ui.c`, namespace `Vic20ui`).  Constants defined in headers that
are not among the sources are parameters.
-/

namespace Mainlock

/-- Thread identities (`pthread_t`). -/
abbrev Tid := Nat

/-- The two atomic flags of `mainlock.c`, named as the C variables. -/
inductive Flag where
  | vice_thread_keepalive
  | ui_waiting_for_vice_lock
  deriving DecidableEq, Repr

/-- The shared variables of `mainlock.c`, and the observable effects of the external
calls it makes.

* `lock` is the recursive mutex `static pthread_mutex_t lock`, represented by its
  outstanding grants: one entry `t` for every `pthread_mutex_lock` call of thread `t`
  that has returned and has not yet been undone by a `pthread_mutex_unlock` of `t`.
* `vice_thread` is `static pthread_t vice_thread`; `none` is the zero-initialised
  value, equal to no running thread.
* `vice_thread_keepalive`, `ui_waiting_for_vice_lock` are the two `int32_t` flags.
* `shutdowns` lists the threads that have called `archdep_thread_shutdown`.
* `sleeps` counts the sleeps performed inside `tick_sleep`.
* `log` collects the messages given to `log_message`, `log_error` and `printf`. -/
structure State where
  lock : List Tid
  vice_thread : Option Tid
  vice_thread_keepalive : Int
  ui_waiting_for_vice_lock : Int
  shutdowns : List Tid
  sleeps : Nat
  log : List String
  deriving DecidableEq, Repr

/-- The values of the statics at program start: `vice_thread_keepalive = 1`,
`ui_waiting_for_vice_lock = 0`, everything else zero. -/
def State.statics : State :=
  { lock := [], vice_thread := none, vice_thread_keepalive := 1,
    ui_waiting_for_vice_lock := 0, shutdowns := [], sleeps := 0, log := [] }

/-! ### The primitives used by `mainlock.c` -/

/-- `pthread_equal(pthread_self(), vice_thread)` evaluated on thread `self`. -/
def pthread_equal (self : Tid) (other : Option Tid) : Bool :=
  other == some self

/-- Whether `pthread_mutex_lock(&lock)` called by `t` returns at once: a recursive
mutex is granted when it is free or when every outstanding grant is `t`'s own. -/
def pthread_mutex_available (t : Tid) (s : State) : Bool :=
  s.lock.all (fun u => u == t)

/-- The effect of a `pthread_mutex_lock(&lock)` of `t` that is granted: one more
grant for `t`. -/
def pthread_mutex_grant (t : Tid) (s : State) : State :=
  { s with lock := t :: s.lock }

/-- `pthread_mutex_unlock(&lock)` called by `t`: gives back one grant of `t`.  When
`t` has none, a recursive mutex returns `EPERM` and is left as it was (`mainlock.c`
ignores the return value). -/
def pthread_mutex_unlock (t : Tid) (s : State) : State :=
  { s with lock := s.lock.erase t }

/-- `atomic_flag_check(x)`: `__atomic_load_n(x, __ATOMIC_ACQUIRE)`. -/
def atomic_flag_check (x : Flag) (s : State) : Int :=
  match x with
  | .vice_thread_keepalive => s.vice_thread_keepalive
  | .ui_waiting_for_vice_lock => s.ui_waiting_for_vice_lock

/-- `__atomic_store_n(x, v, __ATOMIC_RELEASE)`. -/
def atomic_store (x : Flag) (v : Int) (s : State) : State :=
  match x with
  | .vice_thread_keepalive => { s with vice_thread_keepalive := v }
  | .ui_waiting_for_vice_lock => { s with ui_waiting_for_vice_lock := v }

/-- `atomic_flag_set(x)`: stores 1. -/
def atomic_flag_set (x : Flag) (_t : Tid) (s : State) : State :=
  atomic_store x 1 s

/-- `atomic_flag_clear(x)`: stores 0. -/
def atomic_flag_clear (x : Flag) (_t : Tid) (s : State) : State :=
  atomic_store x 0 s

/-- `log_message(LOG_DEFAULT, msg)`. -/
def log_message (msg : String) (_t : Tid) (s : State) : State :=
  { s with log := s.log ++ [msg] }

/-- `log_error(LOG_ERR, msg)`. -/
def log_error (msg : String) (_t : Tid) (s : State) : State :=
  { s with log := s.log ++ [msg] }

/-- `printf(msg)` followed by the `fflush`. -/
def printf (msg : String) (_t : Tid) (s : State) : State :=
  { s with log := s.log ++ [msg] }

/-- `archdep_thread_shutdown()`, the platform teardown: recorded with its caller. -/
def archdep_thread_shutdown (t : Tid) (s : State) : State :=
  { s with shutdowns := s.shutdowns ++ [t] }

/-- The store `vice_thread = pthread_self()`. -/
def store_vice_thread (t : Tid) (s : State) : State :=
  { s with vice_thread := some t }

/-- The sleep itself inside `tick_sleep`; it touches no variable of `mainlock.c`. -/
def archdep_sleep (_t : Tid) (s : State) : State :=
  { s with sleeps := s.sleeps + 1 }

/-! ### Programs -/

/-- What a thread has left to do, as a tree of atomic steps.

* `done`: the outermost mainlock call returns to its caller.
* `pthread_exit`: the thread ends; nothing after it runs.
* `lock k`: `pthread_mutex_lock(&lock)`, then `k`; the thread waits as long as the
  mutex is not available to it.
* `act f k`: the atomic effect `f` (given the executing thread), then `k`.
* `test c a b`: reads the state atomically; continues with `a` when `c` holds and
  with `b` otherwise. -/
inductive Prog where
  | done : Prog
  | pthread_exit : Prog
  | lock (k : Prog) : Prog
  | act (f : Tid → State → State) (k : Prog) : Prog
  | test (c : Tid → State → Bool) (a b : Prog) : Prog

/-- `mainlock_init`: initialises `lock` as a recursive mutex, free. -/
def mainlock_init (s : State) : State :=
  { s with lock := [] }

/-- `mainlock_set_vice_thread`: locks, then records the caller as the vice thread. -/
def mainlock_set_vice_thread (k : Prog) : Prog :=
  .lock <|
  .act store_vice_thread k

/-- `consider_exit`: returns when the keepalive flag is set or the caller is not the
vice thread; otherwise unlocks once, logs, runs the platform teardown and ends the
thread. -/
def consider_exit (k : Prog) : Prog :=
  .test (fun _ s => atomic_flag_check .vice_thread_keepalive s != 0) k <|
  .test (fun t s => !pthread_equal t s.vice_thread) k <|
  .act pthread_mutex_unlock <|
  .act (log_message "VICE thread is exiting") <|
  .act archdep_thread_shutdown <|
  .pthread_exit

/-- `mainlock_initiate_shutdown`. -/
def mainlock_initiate_shutdown (k : Prog) : Prog :=
  .test (fun _ s => atomic_flag_check .vice_thread_keepalive s == 0)
    (.act pthread_mutex_unlock k) <|
  .act (log_message "VICE thread initiating shutdown") <|
  .act (atomic_flag_clear .vice_thread_keepalive) <|
  .test (fun t s => pthread_equal t s.vice_thread)
    (consider_exit <|
     .act (log_error "VICE thread didn't immediately exit when it should have") k)
    (.act (atomic_flag_set .ui_waiting_for_vice_lock) k)

/-- `mainlock_yield_begin`: unlocks. -/
def mainlock_yield_begin (k : Prog) : Prog :=
  .act pthread_mutex_unlock k

/-- `mainlock_yield_end`: locks, then considers exit. -/
def mainlock_yield_end (k : Prog) : Prog :=
  .lock <|
  consider_exit k

/-- Modelled from the spec: `tick_sleep` (declared in `tick.h`; its definition is not
among the sources).  The comment in `mainlock_yield` says that it releases the vice
lock, and the specification describes the yield path as release, minimal sleep,
reacquire, followed by the shutdown check of the reacquiring operation: it is
`mainlock_yield_begin`, the sleep, `mainlock_yield_end`. -/
def tick_sleep (k : Prog) : Prog :=
  mainlock_yield_begin <|
  .act archdep_sleep <|
  mainlock_yield_end k

/-- `mainlock_yield`: sleeps through `tick_sleep(0)` when the UI is waiting. -/
def mainlock_yield (k : Prog) : Prog :=
  .test (fun _ s => atomic_flag_check .ui_waiting_for_vice_lock s != 0)
    (tick_sleep k)
    k

/-- `mainlock_obtain`.  With `DEBUG` a call on the vice thread prints and returns. -/
def mainlock_obtain (debug : Bool) (k : Prog) : Prog :=
  let body : Prog :=
    .act (atomic_flag_set .ui_waiting_for_vice_lock) <|
    .lock <|
    .act (atomic_flag_clear .ui_waiting_for_vice_lock) k
  if debug then
    .test (fun t s => pthread_equal t s.vice_thread)
      (.act (printf "FIXME! VICE thread is trying to obtain the mainlock!\n") k)
      body
  else body

/-- `mainlock_is_vice_thread`, evaluated on thread `t`. -/
def mainlock_is_vice_thread (t : Tid) (s : State) : Bool :=
  pthread_equal t s.vice_thread

/-- `mainlock_release`.  With `DEBUG` a call on the vice thread prints and returns. -/
def mainlock_release (debug : Bool) (k : Prog) : Prog :=
  let body : Prog := .act pthread_mutex_unlock k
  if debug then
    .test (fun t s => pthread_equal t s.vice_thread)
      (.act (printf "FIXME! VICE thread is trying to release the mainlock!\n") k)
      body
  else body

/-! ### One thread running undisturbed -/

/-- How a call ends when no other thread runs meanwhile. -/
inductive Outcome where
  | returned (s : State)
  | exited (s : State)
  | blocked (s : State)
  deriving DecidableEq, Repr

/-- Runs the program on thread `t` from `s` with no other thread taking a step.
`blocked s` is the state in which the thread waits inside `pthread_mutex_lock`. -/
def Prog.run (t : Tid) : Prog → State → Outcome
  | .done, s => .returned s
  | .pthread_exit, s => .exited s
  | .lock k, s =>
      if pthread_mutex_available t s then k.run t (pthread_mutex_grant t s)
      else .blocked s
  | .act f k, s => k.run t (f t s)
  | .test c a b, s => if c t s then a.run t s else b.run t s

/-- The states the shared variables pass through during `Prog.run`, in order: the
state after each `act` and after each granted `lock`. -/
def Prog.trace (t : Tid) : Prog → State → List State
  | .done, _ => []
  | .pthread_exit, _ => []
  | .lock k, s =>
      if pthread_mutex_available t s then
        pthread_mutex_grant t s :: k.trace t (pthread_mutex_grant t s)
      else []
  | .act f k, s => f t s :: k.trace t (f t s)
  | .test c a b, s => if c t s then a.trace t s else b.trace t s

/-- The owner of the mutex, if it is held. -/
def State.owner (s : State) : Option Tid := s.lock.head?

/-- The recursion count of the mutex. -/
def State.count (s : State) : Nat := s.lock.length

/-- Thread `t` holds the mutex with recursion count `n`. -/
def State.HeldBy (s : State) (t : Tid) (n : Nat) : Prop :=
  0 < n ∧ s.lock = List.replicate n t

instance (s : State) (t : Tid) (n : Nat) : Decidable (s.HeldBy t n) := by
  unfold State.HeldBy; infer_instance

/-- The mutex is free. -/
def State.Free (s : State) : Prop := s.lock = []

instance (s : State) : Decidable s.Free := by
  unfold State.Free; infer_instance

/-! ### Any number of threads, atomic steps interleaved -/

/-- What a thread is doing: outside every mainlock call, inside one with the
program `p` left to run, or ended by `pthread_exit`. -/
inductive Thread where
  | idle : Thread
  | busy (p : Prog) : Thread
  | dead : Thread

/-- The shared state and what every thread is doing. -/
structure Config where
  st : State
  thr : Tid → Thread

/-- The entry points of `mainlock.h` a thread can call once `mainlock_init` has run. -/
inductive Op where
  | set_vice_thread
  | obtain
  | release
  | yield
  | yield_begin
  | yield_end
  | initiate_shutdown
  | is_vice_thread
  deriving DecidableEq, Repr

/-- The program of a call that returns to code outside the mainlock. -/
def Op.body (debug : Bool) : Op → Prog
  | .set_vice_thread => mainlock_set_vice_thread .done
  | .obtain => mainlock_obtain debug .done
  | .release => mainlock_release debug .done
  | .yield => mainlock_yield .done
  | .yield_begin => mainlock_yield_begin .done
  | .yield_end => mainlock_yield_end .done
  | .initiate_shutdown => mainlock_initiate_shutdown .done
  | .is_vice_thread => .test mainlock_is_vice_thread .done .done

/-- The scheduler's choices: an idle thread `t` calls `op`, or a thread inside a call
takes its next atomic step. -/
inductive Event where
  | call (t : Tid) (op : Op)
  | step (t : Tid)
  deriving DecidableEq, Repr

/-- The configuration after `mainlock_init`: every thread idle. -/
def Config.boot : Config :=
  { st := mainlock_init State.statics, thr := fun _ => .idle }

/-- One scheduling step; `none` when the event cannot happen (the thread is not idle
for a `call`; it is idle, dead, or waiting for a mutex it cannot get for a `step`). -/
def Config.next (debug : Bool) (c : Config) : Event → Option Config
  | .call t op =>
      match c.thr t with
      | .idle => some { c with thr := Function.update c.thr t (.busy (op.body debug)) }
      | _ => none
  | .step t =>
      match c.thr t with
      | .busy .done => some { c with thr := Function.update c.thr t .idle }
      | .busy .pthread_exit => some { c with thr := Function.update c.thr t .dead }
      | .busy (.lock k) =>
          if pthread_mutex_available t c.st then
            some { st := pthread_mutex_grant t c.st,
                   thr := Function.update c.thr t (.busy k) }
          else none
      | .busy (.act f k) =>
          some { st := f t c.st, thr := Function.update c.thr t (.busy k) }
      | .busy (.test g a b) =>
          some { c with thr := Function.update c.thr t (.busy (if g t c.st then a else b)) }
      | _ => none

/-- Runs a schedule; `none` when one of its events cannot happen. -/
def Config.exec (debug : Bool) (c : Config) : List Event → Option Config
  | [] => some c
  | e :: es => (c.next debug e).bind (fun c1 => c1.exec debug es)

/-- The shared state reached from `Config.boot` by a schedule. -/
def reach (debug : Bool) (es : List Event) : Option State :=
  (Config.boot.exec debug es).map (fun c => c.st)

/-- Every atomic effect occurring in the program satisfies `P`. -/
def Prog.Forall (P : (Tid → State → State) → Prop) : Prog → Prop
  | .done => True
  | .pthread_exit => True
  | .lock k => k.Forall P
  | .act f k => P f ∧ k.Forall P
  | .test _ a b => a.Forall P ∧ b.Forall P

/-- No two different threads have a grant of the mutex. -/
def State.Exclusive (s : State) : Prop :=
  ∀ t u, t ∈ s.lock → u ∈ s.lock → t = u

/-! ### Sequences of whole calls -/

/-- Lets thread `t` run alone as far as it gets: until its call returns (`idle`), the
thread ends (`dead`), or it has to wait for the mutex (`busy`, at the `lock`). -/
def Prog.settle (t : Tid) : Prog → State → Thread × State
  | .done, s => (.idle, s)
  | .pthread_exit, s => (.dead, s)
  | .lock k, s =>
      if pthread_mutex_available t s then k.settle t (pthread_mutex_grant t s)
      else (.busy (.lock k), s)
  | .act f k, s => k.settle t (f t s)
  | .test c a b, s => if c t s then a.settle t s else b.settle t s

/-- A sequence of operations is made of whole calls: an idle thread `t` calls `op`,
which runs up to its return, the end of the thread or a wait for the mutex; a thread
waiting for the mutex is resumed once the mutex is available to it. -/
inductive Move where
  | call (t : Tid) (op : Op)
  | resume (t : Tid)
  deriving DecidableEq, Repr

/-- One operation; `none` when it cannot happen (a call by a thread that is not idle,
a resumption of a thread that is not waiting or cannot get the mutex). -/
def Config.move (debug : Bool) (c : Config) : Move → Option Config
  | .call t op =>
      match c.thr t with
      | .idle =>
          some { st := ((op.body debug).settle t c.st).2,
                 thr := Function.update c.thr t ((op.body debug).settle t c.st).1 }
      | _ => none
  | .resume t =>
      match c.thr t with
      | .busy (.lock k) =>
          if pthread_mutex_available t c.st then
            some { st := ((Prog.lock k).settle t c.st).2,
                   thr := Function.update c.thr t ((Prog.lock k).settle t c.st).1 }
          else none
      | _ => none

/-- Runs a sequence of operations; `none` when one of them cannot happen. -/
def Config.play (debug : Bool) (c : Config) : List Move → Option Config
  | [] => some c
  | m :: ms => (c.move debug m).bind (fun c1 => c1.play debug ms)

/-- The shared state reached from `Config.boot` by a sequence of operations. -/
def reachCalls (debug : Bool) (ms : List Move) : Option State :=
  (Config.boot.play debug ms).map (fun c => c.st)

/-- Whether `mainlock_initiate_shutdown` is called in the sequence. -/
def shutdownCalled (ms : List Move) : Bool :=
  ms.any (fun m => match m with
    | .call _ .initiate_shutdown => true
    | _ => false)

/-! ### Predicates used by the invariants -/

/-- The configuration satisfies `I` and every program in flight is made of effects
satisfying `P`. -/
def Config.Good (I : State → Prop) (P : (Tid → State → State) → Prop) (c : Config) : Prop :=
  I c.st ∧ ∀ t p, c.thr t = .busy p → p.Forall P

/-- An effect that leaves the grants alone or gives back one grant of its thread. -/
def LockShrinks (f : Tid → State → State) : Prop :=
  ∀ t s, (f t s).lock = s.lock ∨ (f t s).lock = s.lock.erase t

/-- An effect that does not write `vice_thread_keepalive`. -/
def KeepsKeepalive (f : Tid → State → State) : Prop :=
  ∀ t s, (f t s).vice_thread_keepalive = s.vice_thread_keepalive

/-- Every thread inside a call has only effects left that do not write
`vice_thread_keepalive`. -/
def Config.Calm (c : Config) : Prop :=
  ∀ t p, c.thr t = .busy p → p.Forall KeepsKeepalive

/-- The value of `vice_thread_keepalive` after an operation, given its value `v`
before: a call of `mainlock_initiate_shutdown` clears it, nothing else writes it. -/
def Move.keepalive (v : Int) : Move → Int
  | .call _ .initiate_shutdown => 0
  | _ => v

/-- An effect that does not write `vice_thread`. -/
def KeepsViceThread (f : Tid → State → State) : Prop :=
  ∀ t s, (f t s).vice_thread = s.vice_thread

/-- No call of `mainlock_set_vice_thread` is in progress: every thread inside a call has
only effects left that do not write `vice_thread`. -/
def Config.Steady (c : Config) : Prop :=
  ∀ t p, c.thr t = .busy p → p.Forall KeepsViceThread

/-- Whether `mainlock_set_vice_thread` is called in the sequence. -/
def adoptCalled (ms : List Move) : Bool :=
  ms.any (fun m => match m with
    | .call _ .set_vice_thread => true
    | _ => false)

/-- Whether every call of `mainlock_set_vice_thread` in the sequence is made by `w`. -/
def adoptedOnlyBy (w : Tid) (ms : List Move) : Bool :=
  ms.all (fun m => match m with
    | .call u .set_vice_thread => u == w
    | _ => true)

/-- The calls a thread can be waiting in: the three functions of `mainlock.c` that call
`pthread_mutex_lock` (`mainlock_yield` waits inside the `mainlock_yield_end` of
`tick_sleep`). -/
inductive Wait where
  | set_vice_thread
  | yield_end
  | obtain
  deriving DecidableEq, Repr

/-- What a thread waiting for the mutex has left to run, from the `pthread_mutex_lock`
on. -/
def Wait.prog : Wait → Prog
  | .set_vice_thread => mainlock_set_vice_thread .done
  | .yield_end => mainlock_yield_end .done
  | .obtain => .lock (.act (atomic_flag_clear .ui_waiting_for_vice_lock) .done)

/-- What one operation of thread `t` from state `s` can have done, `r` being the thread
and the state after it: where the thread is, whether `vice_thread` was written, and
whether the teardown ran.  `adopt` says whether the operation is (the rest of) a call of
`mainlock_set_vice_thread`. -/
def Summary (adopt : Prop) (t : Tid) (s : State) (r : Thread × State) : Prop :=
  (r.1 = .idle ∨ r.1 = .dead ∨ r.1 = .busy Wait.yield_end.prog ∨ r.1 = .busy Wait.obtain.prog ∨
    (r.1 = .busy Wait.set_vice_thread.prog ∧ adopt)) ∧
  (r.2.vice_thread = s.vice_thread ∨ (r.2.vice_thread = some t ∧ adopt)) ∧
  (r.2.shutdowns = s.shutdowns ∨
    (r.2.shutdowns = s.shutdowns ++ [t] ∧ r.1 = .dead ∧ s.vice_thread = some t ∧
      r.2.vice_thread = some t))

/-- Only `w` becomes the vice thread, and the teardown has run at most once: if it has,
it ran on `w`, which is the vice thread and has ended. -/
def Config.Single (w : Tid) (c : Config) : Prop :=
  (∀ u p, c.thr u = .busy p → ∃ k : Wait, p = k.prog ∧ (k = .set_vice_thread → u = w)) ∧
  (c.st.vice_thread = none ∨ c.st.vice_thread = some w) ∧
  (c.st.shutdowns = [] ∨
    (c.st.shutdowns = [w] ∧ c.st.vice_thread = some w ∧ c.thr w = .dead))

end Mainlock

/-! ## `arch/shared/hotkeys/vhkkeysyms.c`, `vicii/vicii-cmdline-options.c`,
`arch/unix/xaw/vic20ui.c` -/

namespace Hotkeys

/-- The mask constants `VHK_MOD_ALT` ... `VHK_MOD_SUPER` of `hotkeystypes.h`, which is
not among the sources: they are parameters of everything below. -/
structure Masks where
  VHK_MOD_ALT : Nat
  VHK_MOD_COMMAND : Nat
  VHK_MOD_CONTROL : Nat
  VHK_MOD_HYPER : Nat
  VHK_MOD_META : Nat
  VHK_MOD_OPTION : Nat
  VHK_MOD_SHIFT : Nat
  VHK_MOD_SUPER : Nat
  deriving DecidableEq, Repr

/-- Modelled from the spec: `VHK_MOD_NONE` of `hotkeystypes.h` (not among the sources);
the doc comment of `vhk_modmask_name` and the claims give its value, 0. -/
def VHK_MOD_NONE : Nat := 0

/-- Modelled from the spec: `VHK_MODIFIER_OPEN` of `hotkeystypes.h` (not among the
sources); the comments of `vhkkeysyms.c` and the claims give the character. -/
def VHK_MODIFIER_OPEN : Char := '<'

/-- Modelled from the spec: `VHK_MODIFIER_CLOSE` of `hotkeystypes.h` (not among the
sources); the comments of `vhkkeysyms.c` and the claims give the character. -/
def VHK_MODIFIER_CLOSE : Char := '>'

/-- An element of `vhk_modifier_list`: mask, name, and the name shown in the UI.  A C
string is the list of its characters before the terminating nul. -/
structure vhk_modifier_t where
  mask : Nat
  name : List Char
  utf8 : List Char
  deriving DecidableEq, Repr

/-- The table `vhk_modifier_list`. -/
def vhk_modifier_list (M : Masks) : List vhk_modifier_t :=
  [ { mask := M.VHK_MOD_ALT,     name := "Alt".toList,     utf8 := "Alt".toList },
    { mask := M.VHK_MOD_COMMAND, name := "Command".toList, utf8 := "Command ⌘".toList },
    { mask := M.VHK_MOD_CONTROL, name := "Control".toList, utf8 := "Control ⌃".toList },
    { mask := M.VHK_MOD_HYPER,   name := "Hyper".toList,   utf8 := "Hyper".toList },
    { mask := M.VHK_MOD_META,    name := "Meta".toList,    utf8 := "Meta".toList },
    { mask := M.VHK_MOD_OPTION,  name := "Option".toList,  utf8 := "Option ⌥".toList },
    { mask := M.VHK_MOD_SHIFT,   name := "Shift".toList,   utf8 := "Shift ⇧".toList },
    { mask := M.VHK_MOD_SUPER,   name := "Super".toList,   utf8 := "Super".toList } ]

/-- The character a pointer into a C string points at: the head of what is left of
the string, the terminating nul when nothing is left. -/
def deref (p : List Char) : Char := p.headD '\x00'

/-- `tolower((unsigned char)c)` in the C locale: only `A`..`Z` change. -/
def tolower (c : Char) : Char := c.toLower

/-- `strlen`. -/
def strlen (s : List Char) : Nat := s.length

/-- The `while` loop of `vhk_modifier_from_name`: `s` and `name` are what is left of
the two strings from index `k` on; returns the final `k` with what is then left. -/
def scan : List Char → List Char → Nat → Nat × List Char × List Char
  | c :: s, d :: name, k =>
      if c ≠ '\x00' ∧ d ≠ '\x00' ∧ d ≠ VHK_MODIFIER_CLOSE ∧ tolower d = tolower c then
        scan s name (k + 1)
      else (k, c :: s, d :: name)
  | s, name, k => (k, s, name)

/-- The body of the `for` loop of `vhk_modifier_from_name` for the table entry `m`:
`some k` when `m` matches, `k` being the index in `name` where its name ends. -/
def match_modifier (m : vhk_modifier_t) (name : List Char) : Option Nat :=
  let r := scan m.name name 0
  if deref r.2.1 = '\x00' ∧ (deref r.2.2 = '\x00' ∨ deref r.2.2 = VHK_MODIFIER_CLOSE) then
    some r.1
  else none

/-- The `for` loop of `vhk_modifier_from_name`: the first matching entry of the table
and the index in `name` where its name ends. -/
def find_modifier (name : List Char) : List vhk_modifier_t → Option (vhk_modifier_t × Nat)
  | [] => none
  | m :: ms =>
      match match_modifier m name with
      | some k => some (m, k)
      | none => find_modifier name ms

/-- A value of type `const char *` pointing into the argument `name`: `NULL`, or
`name + k` (`offset k`). -/
inductive Ptr where
  | null
  | offset (k : Nat)
  deriving DecidableEq, Repr

/-- `vhk_modifier_from_name(name, endptr)`.  `name` is `none` for `NULL`; `endptr` says
whether the pointer `endptr` is non-null.  The result is the returned mask and what
was stored in `*endptr`: `none` when nothing was stored. -/
def vhk_modifier_from_name (M : Masks) (name : Option (List Char)) (endptr : Bool) :
    Nat × Option Ptr :=
  match name with
  | none => (VHK_MOD_NONE, if endptr then some .null else none)
  | some name =>
      if deref name = '\x00' then
        (VHK_MOD_NONE, if endptr then some (.offset 0) else none)
      else
        let skip := if deref name = VHK_MODIFIER_OPEN then 1 else 0
        match find_modifier (name.drop skip) (vhk_modifier_list M) with
        | some (m, k) => (m.mask, if endptr then some (.offset (skip + k)) else none)
        | none => (VHK_MOD_NONE, none)

/-- A block returned by `lib_malloc`: its bytes (`none` for a byte not yet written)
and the number of byte writes made into it so far. -/
structure Block where
  bytes : List (Option Char)
  writes : Nat
  deriving DecidableEq, Repr

/-- `lib_malloc(n)`. -/
def lib_malloc (n : Nat) : Block := { bytes := List.replicate n none, writes := 0 }

/-- The store `p[i] = c` into the block `p`; `none` when `i` is outside the block. -/
def poke (b : Block) (i : Nat) (c : Char) : Option Block :=
  if i < b.bytes.length then
    some { bytes := b.bytes.set i (some c), writes := b.writes + 1 }
  else none

/-- `memcpy(p + dst, src, strlen(src))` into the block `p`. -/
def memcpy (b : Block) (dst : Nat) : List Char → Option Block
  | [] => some b
  | c :: cs => (poke b dst c).bind (fun b1 => memcpy b1 (dst + 1) cs)

/-- The first `for` loop of `vhk_modmask_name`: adds to `len` the room for every
selected entry. -/
def names_length (vice_modmask : Nat) : List vhk_modifier_t → Nat → Nat
  | [], len => len
  | m :: ms, len =>
      names_length vice_modmask ms
        (if vice_modmask &&& m.mask ≠ 0 then len + (strlen m.name + 2) else len)

/-- The second `for` loop of `vhk_modmask_name`: writes `<name>` for every selected
entry at `curpos`; returns the block and the final `curpos`. -/
def add_names (vice_modmask : Nat) : List vhk_modifier_t → Block → Nat → Option (Block × Nat)
  | [], b, curpos => some (b, curpos)
  | m :: ms, b, curpos =>
      if vice_modmask &&& m.mask ≠ 0 then
        (poke b curpos VHK_MODIFIER_OPEN).bind fun b1 =>
        (memcpy b1 (curpos + 1) m.name).bind fun b2 =>
        (poke b2 (curpos + 1 + strlen m.name) VHK_MODIFIER_CLOSE).bind fun b3 =>
        add_names vice_modmask ms b3 (curpos + 1 + strlen m.name + 1)
      else add_names vice_modmask ms b curpos

/-- `vhk_modmask_name(vice_modmask)`: the block it returns, `none` if it writes outside
the block it allocated. -/
def vhk_modmask_name (M : Masks) (vice_modmask : Nat) : Option Block :=
  if vice_modmask = VHK_MOD_NONE then
    poke (lib_malloc 1) 0 '\x00'
  else
    let len := names_length vice_modmask (vhk_modifier_list M) 0
    (add_names vice_modmask (vhk_modifier_list M) (lib_malloc (len + 1)) 0).bind fun r =>
    poke r.1 r.2 '\x00'

/-- The C string held in a block: the characters before the first nul; `none` when a
byte that was never written, or the end of the block, comes first. -/
def c_str : List (Option Char) → Option (List Char)
  | [] => none
  | none :: _ => none
  | some c :: rest => if c = '\x00' then some [] else (c_str rest).map (fun s => c :: s)

/-- Whether the entry is selected by the mask: `vice_modmask & mod->mask`. -/
def selected (vice_modmask : Nat) (m : vhk_modifier_t) : Bool :=
  vice_modmask &&& m.mask != 0

/-- The text `<name>` of an entry. -/
def bracketed (m : vhk_modifier_t) : List Char :=
  VHK_MODIFIER_OPEN :: m.name ++ [VHK_MODIFIER_CLOSE]

/-- The part of `name` that is compared with the modifier names: `name` without one
leading `<`, up to the first `>`. -/
def token (name : List Char) : List Char :=
  ((if deref name = VHK_MODIFIER_OPEN then name.drop 1 else name).takeWhile
    (fun c => c != VHK_MODIFIER_CLOSE))

/-- Follows the claim's words ("ignoring ASCII case"), not the source: two characters
are the same ignoring ASCII case when they are one character, or one of them is a
capital letter `A`..`Z` (code points 65..90) and the other is the small letter 32 code
points above it. -/
def same_ignoring_ascii_case (a b : Char) : Bool :=
  a == b ||
  (decide (65 ≤ a.toNat ∧ a.toNat ≤ 90) && b.toNat == a.toNat + 32) ||
  (decide (65 ≤ b.toNat ∧ b.toNat ≤ 90) && a.toNat == b.toNat + 32)

/-- Follows the claim's words, not the source: two strings are equal ignoring ASCII
case when they have the same length and are the same ignoring ASCII case at every
position. -/
def equal_ignoring_ascii_case : List Char → List Char → Bool
  | [], [] => true
  | a :: as, b :: bs => same_ignoring_ascii_case a b && equal_ignoring_ascii_case as bs
  | _, _ => false

/-- Sample values for the masks, one bit each. -/
def Masks.sample : Masks :=
  { VHK_MOD_ALT := 1, VHK_MOD_COMMAND := 2, VHK_MOD_CONTROL := 4, VHK_MOD_HYPER := 8,
    VHK_MOD_META := 16, VHK_MOD_OPTION := 32, VHK_MOD_SHIFT := 64, VHK_MOD_SUPER := 128 }

end Hotkeys

namespace Vicii

/-- The border-mode constants `VICII_NORMAL_BORDERS`, `VICII_FULL_BORDERS`,
`VICII_DEBUG_BORDERS` and `VICII_NO_BORDERS`, whose definitions are not among the
sources: they are parameters of `border_set_func`. -/
structure BorderModes where
  VICII_NORMAL_BORDERS : Int
  VICII_FULL_BORDERS : Int
  VICII_DEBUG_BORDERS : Int
  VICII_NO_BORDERS : Int
  deriving DecidableEq, Repr

/-- What `border_set_func` reads and writes: the resources (by name),
`vicii_resources.border_mode`, and the calls of `machine_change_timing` made so far,
each with its two arguments. -/
structure Machine where
  resources : List (String × Int)
  border_mode : Int
  machine_change_timing : List (Option Int × Int)
  deriving DecidableEq, Repr

/-- `resources_get_int(name, &v)`: the value stored in `v`, `none` when the resource
does not exist and `v` is left as it was. -/
def resources_get_int (m : Machine) (name : String) : Option Int :=
  m.resources.lookup name

/-- `strcmp(a, b) == 0` for two C strings. -/
def strcmp_zero (a b : String) : Bool := a == b

/-- `border_set_func(value, extra_param)`: the returned `int` and the machine after the
call.  `video` is the local variable, `none` while it has no value. -/
def border_set_func (B : BorderModes) (value : String) (m : Machine) : Int × Machine :=
  let video := resources_get_int m "MachineVideoStandard"
  let m1 : Machine :=
    if strcmp_zero value "1" || strcmp_zero value "full" then
      { m with border_mode := B.VICII_FULL_BORDERS }
    else if strcmp_zero value "2" || strcmp_zero value "debug" then
      { m with border_mode := B.VICII_DEBUG_BORDERS }
    else if strcmp_zero value "3" || strcmp_zero value "none" then
      { m with border_mode := B.VICII_NO_BORDERS }
    else
      { m with border_mode := B.VICII_NORMAL_BORDERS }
  (0, { m1 with machine_change_timing := m1.machine_change_timing ++ [(video, m1.border_mode)] })

end Vicii

namespace Vic20ui

/-- The first anonymous `enum` of `vic20ui.c`. -/
def MEM_NONE : Int := 0
/-- Second enumerator. -/
def MEM_ALL : Int := 1
/-- Third enumerator. -/
def MEM_3K : Int := 2
/-- Fourth enumerator. -/
def MEM_8K : Int := 3
/-- Fifth enumerator. -/
def MEM_16K : Int := 4
/-- Sixth enumerator. -/
def MEM_24K : Int := 5

/-- The second anonymous `enum`: `BLOCK_0 = 1`. -/
def BLOCK_0 : Nat := 1
/-- `BLOCK_1 = 1 << 1`. -/
def BLOCK_1 : Nat := 1 <<< 1
/-- `BLOCK_2 = 1 << 2`. -/
def BLOCK_2 : Nat := 1 <<< 2
/-- `BLOCK_3 = 1 << 3`. -/
def BLOCK_3 : Nat := 1 <<< 3
/-- `BLOCK_5 = 1 << 5`. -/
def BLOCK_5 : Nat := 1 <<< 5

/-- The calls `set_common_memory_configuration` makes, with their arguments. -/
inductive Effect where
  | fprintf_stderr (msg : String)
  | resources_set_value (name : String) (value : Int)
  | ui_menu_update_all
  | suspend_speed_eval
  deriving DecidableEq, Repr

/-- The callback `set_common_memory_configuration`: the calls it makes, in order.
`client_data` is the argument cast to `int`; `call_data` is `none` for a null pointer. -/
def set_common_memory_configuration (client_data : Int) (call_data : Option Nat) :
    List Effect :=
  if call_data.isNone then
    let r : List Effect × Nat :=
      if client_data = MEM_NONE then ([], 0)
      else if client_data = MEM_ALL then
        ([], BLOCK_0 ||| BLOCK_1 ||| BLOCK_2 ||| BLOCK_3 ||| BLOCK_5)
      else if client_data = MEM_3K then ([], BLOCK_0)
      else if client_data = MEM_8K then ([], BLOCK_1)
      else if client_data = MEM_16K then ([], BLOCK_1 ||| BLOCK_2)
      else if client_data = MEM_24K then ([], BLOCK_1 ||| BLOCK_2 ||| BLOCK_3)
      else ([.fprintf_stderr "What?!\n"], 0)
    let blocks := r.2
    r.1 ++
    [ .resources_set_value "RamBlock0" (if blocks &&& BLOCK_0 ≠ 0 then 1 else 0),
      .resources_set_value "RamBlock1" (if blocks &&& BLOCK_1 ≠ 0 then 1 else 0),
      .resources_set_value "RamBlock2" (if blocks &&& BLOCK_2 ≠ 0 then 1 else 0),
      .resources_set_value "RamBlock3" (if blocks &&& BLOCK_3 ≠ 0 then 1 else 0),
      .resources_set_value "RamBlock5" (if blocks &&& BLOCK_5 ≠ 0 then 1 else 0),
      .ui_menu_update_all,
      .suspend_speed_eval ]
  else []

/-- An element of a menu table: label, callback and callback data (`none` for a null
pointer); the fourth member, the submenu, is null in every entry used here. -/
structure ui_menu_entry_t where
  string : Option String
  callback : Option (Int → Option Nat → List Effect)
  callback_data : Int

/-- The table `common_memory_configurations_submenu`, without its terminating
`{ NULL }`. -/
def common_memory_configurations_submenu : List ui_menu_entry_t :=
  [ ⟨some "No expansion memory", some set_common_memory_configuration, MEM_NONE⟩,
    ⟨some "--", none, 0⟩,
    ⟨some "3K (block 0)", some set_common_memory_configuration, MEM_3K⟩,
    ⟨some "8K (block 1)", some set_common_memory_configuration, MEM_8K⟩,
    ⟨some "16K (blocks 1/2)", some set_common_memory_configuration, MEM_16K⟩,
    ⟨some "24K (blocks 1/2/3)", some set_common_memory_configuration, MEM_24K⟩,
    ⟨some "--", none, 0⟩,
    ⟨some "All (blocks 0/1/2/3/5)", some set_common_memory_configuration, MEM_ALL⟩ ]

/-- The resources set by a list of calls, with the values, in order. -/
def resources_set (es : List Effect) : List (String × Int) :=
  es.filterMap (fun e => match e with
    | .resources_set_value name value => some (name, value)
    | _ => none)

/-- What selecting each entry of a menu does: for every entry with a callback, its
label and the calls the callback makes when called with the entry's data and a null
`call_data`. -/
def select_each (menu : List ui_menu_entry_t) : List (String × List Effect) :=
  menu.filterMap (fun e => match e.string, e.callback with
    | some label, some cb => some (label, cb e.callback_data none)
    | _, _ => none)

end Vic20ui

namespace Mainlock

/-! ### Invariants of the interleaved machine -/

theorem Config.Good.next {I : State → Prop} {P : (Tid → State → State) → Prop}
    {debug : Bool}
    (hbody : ∀ op, (Op.body debug op).Forall P)
    (hact : ∀ f, P f → ∀ t s, I s → I (f t s))
    (hgrant : ∀ t s, I s → pthread_mutex_available t s = true → I (pthread_mutex_grant t s))
    {c c1 : Config} {e : Event} (hc : c.Good I P) (h : c.next debug e = some c1) :
    c1.Good I P := by
  obtain ⟨hI, hP⟩ := hc
  cases e with
  | call t op =>
    simp only [Config.next] at h
    split at h
    · injection h with h
      subst h
      refine ⟨hI, fun u p hu => ?_⟩
      by_cases htu : u = t
      · subst htu
        simp only [Function.update_same, Thread.busy.injEq] at hu
        subst hu
        exact hbody op
      · simp only [Function.update_noteq htu] at hu
        exact hP u p hu
    · cases h
  | step t =>
    simp only [Config.next] at h
    split at h
    · injection h with h
      subst h
      refine ⟨hI, fun u p hu => ?_⟩
      by_cases htu : u = t
      · subst htu
        simp at hu
      · simp only [Function.update_noteq htu] at hu
        exact hP u p hu
    · injection h with h
      subst h
      refine ⟨hI, fun u p hu => ?_⟩
      by_cases htu : u = t
      · subst htu
        simp at hu
      · simp only [Function.update_noteq htu] at hu
        exact hP u p hu
    · rename_i k hk
      split at h
      · rename_i hav
        injection h with h
        subst h
        refine ⟨hgrant t _ hI hav, fun u p hu => ?_⟩
        by_cases htu : u = t
        · subst htu
          simp only [Function.update_same, Thread.busy.injEq] at hu
          subst hu
          exact hP u (.lock _) hk
        · simp only [Function.update_noteq htu] at hu
          exact hP u p hu
      · cases h
    · rename_i f k hk
      injection h with h
      subst h
      have hfk := hP t _ hk
      refine ⟨hact f hfk.1 t _ hI, fun u p hu => ?_⟩
      by_cases htu : u = t
      · subst htu
        simp only [Function.update_same, Thread.busy.injEq] at hu
        subst hu
        exact hfk.2
      · simp only [Function.update_noteq htu] at hu
        exact hP u p hu
    · rename_i g a b hk
      injection h with h
      subst h
      have hab := hP t _ hk
      refine ⟨hI, fun u p hu => ?_⟩
      by_cases htu : u = t
      · subst htu
        simp only [Function.update_same, Thread.busy.injEq] at hu
        subst hu
        split
        · exact hab.1
        · exact hab.2
      · simp only [Function.update_noteq htu] at hu
        exact hP u p hu
    · cases h

theorem Config.Good.exec {I : State → Prop} {P : (Tid → State → State) → Prop}
    {debug : Bool}
    (hbody : ∀ op, (Op.body debug op).Forall P)
    (hact : ∀ f, P f → ∀ t s, I s → I (f t s))
    (hgrant : ∀ t s, I s → pthread_mutex_available t s = true → I (pthread_mutex_grant t s)) :
    ∀ (es : List Event) (c c1 : Config), c.Good I P → c.exec debug es = some c1 →
      c1.Good I P
  | [], c, c1, hc, h => by
    simp only [Config.exec, Option.some.injEq] at h
    exact h ▸ hc
  | e :: es, c, c1, hc, h => by
    simp only [Config.exec] at h
    cases hn : c.next debug e with
    | none => simp [hn] at h
    | some c2 =>
      simp only [hn, Option.some_bind] at h
      exact Config.Good.exec hbody hact hgrant es c2 c1
        (Config.Good.next hbody hact hgrant hc hn) h

theorem Config.boot_good (I : State → Prop) (P : (Tid → State → State) → Prop)
    (h : I Config.boot.st) : Config.boot.Good I P :=
  ⟨h, fun t p ht => by simp [Config.boot] at ht⟩

theorem body_lockShrinks (debug : Bool) (op : Op) : (Op.body debug op).Forall LockShrinks := by
  cases op <;> cases debug <;>
    simp [Op.body, Prog.Forall, LockShrinks, mainlock_set_vice_thread, mainlock_obtain,
      mainlock_release, mainlock_yield, mainlock_yield_begin, mainlock_yield_end,
      mainlock_initiate_shutdown, consider_exit, tick_sleep, store_vice_thread,
      atomic_flag_set, atomic_flag_clear, atomic_store, printf, log_message, log_error,
      archdep_thread_shutdown, archdep_sleep, pthread_mutex_unlock]

theorem State.Exclusive.of_lockShrinks {f : Tid → State → State} (hf : LockShrinks f)
    (t : Tid) (s : State) (hs : s.Exclusive) : (f t s).Exclusive := by
  intro a b ha hb
  rcases hf t s with h | h <;> rw [h] at ha hb
  · exact hs a b ha hb
  · exact hs a b (List.mem_of_mem_erase ha) (List.mem_of_mem_erase hb)

theorem State.Exclusive.grant (t : Tid) (s : State) (_hs : s.Exclusive)
    (hav : pthread_mutex_available t s = true) : (pthread_mutex_grant t s).Exclusive := by
  have hall : ∀ u ∈ s.lock, u = t := by
    simpa [pthread_mutex_available] using hav
  have hall2 : ∀ u ∈ (pthread_mutex_grant t s).lock, u = t := by
    intro u hu
    simp only [pthread_mutex_grant, List.mem_cons] at hu
    rcases hu with h | h
    · exact h
    · exact hall u h
  intro a b ha hb
  rw [hall2 a ha, hall2 b hb]

/-- C1. Mutual exclusion: in every state reached from the initialised mainlock by any
interleaving of the atomic steps of any calls of `mainlock_set_vice_thread`,
`mainlock_obtain`, `mainlock_release`, `mainlock_yield`, `mainlock_yield_begin`,
`mainlock_yield_end`, `mainlock_initiate_shutdown` (and `mainlock_is_vice_thread`)
made by any threads, in either build, two threads that both hold a grant of the
mutex are the same thread. -/
theorem mutual_exclusion (debug : Bool) (es : List Event) (s : State)
    (h : reach debug es = some s) :
    ∀ t u : Tid, t ∈ s.lock → u ∈ s.lock → t = u := by
  simp only [reach, Option.map_eq_some'] at h
  obtain ⟨c, hc, rfl⟩ := h
  exact (Config.Good.exec (I := State.Exclusive) (P := LockShrinks)
    (body_lockShrinks debug) (fun f hf t s hs => hs.of_lockShrinks hf t)
    State.Exclusive.grant es Config.boot c
    (Config.boot_good _ _ (by intro a b ha; simp [Config.boot, mainlock_init] at ha)) hc).1

/-- Witness for `mutual_exclusion`: thread 0 has become the vice thread and thread 1
waits inside `mainlock_obtain`. -/
theorem mutual_exclusion_witness :
    reach false [.call 0 .set_vice_thread, .step 0, .step 0, .step 0,
        .call 1 .obtain, .step 1]
      = some { lock := [0], vice_thread := some 0, vice_thread_keepalive := 1,
               ui_waiting_for_vice_lock := 1, shutdowns := [], sleeps := 0, log := [] }
    ∧ ∀ t u : Tid, t ∈ [0] → u ∈ [0] → t = u :=
  ⟨by rfl,
   mutual_exclusion false
     [.call 0 .set_vice_thread, .step 0, .step 0, .step 0, .call 1 .obtain, .step 1]
     { lock := [0], vice_thread := some 0, vice_thread_keepalive := 1,
       ui_waiting_for_vice_lock := 1, shutdowns := [], sleeps := 0, log := [] }
     (by rfl)⟩

/-! ### Single calls -/

theorem available_of_free {s : State} (t : Tid) (h : s.Free) :
    pthread_mutex_available t s = true := by
  simp [pthread_mutex_available, State.Free.eq_1 s ▸ h]

theorem available_of_heldBy {s : State} {t : Tid} {n : Nat} (h : s.HeldBy t n) :
    pthread_mutex_available t s = true := by
  simp [pthread_mutex_available, h.2]

theorem available_of_replicate {s : State} {t : Tid} {n : Nat}
    (h : s.lock = List.replicate n t) : pthread_mutex_available t s = true := by
  simp [pthread_mutex_available, h]

/-- The exact effect of `mainlock_obtain` when the mutex is available and the `DEBUG`
test does not fire: one more grant, `ui_waiting_for_vice_lock` cleared. -/
theorem run_obtain (debug : Bool) (t : Tid) (s : State) (k : Prog)
    (hav : pthread_mutex_available t s = true)
    (hd : debug = false ∨ mainlock_is_vice_thread t s = false) :
    (mainlock_obtain debug k).run t s
      = k.run t { s with lock := t :: s.lock, ui_waiting_for_vice_lock := 0 } := by
  have hav2 : pthread_mutex_available t (atomic_flag_set .ui_waiting_for_vice_lock t s) = true := by
    simpa [pthread_mutex_available, atomic_flag_set, atomic_store] using hav
  have hbody : (Prog.act (atomic_flag_set .ui_waiting_for_vice_lock)
      (.lock (.act (atomic_flag_clear .ui_waiting_for_vice_lock) k))).run t s
      = k.run t { s with lock := t :: s.lock, ui_waiting_for_vice_lock := 0 } := by
    simp only [Prog.run, hav2, if_true]
    simp [atomic_flag_set, atomic_flag_clear, atomic_store, pthread_mutex_grant]
  cases debug
  · simpa [mainlock_obtain] using hbody
  · have hvt : pthread_equal t s.vice_thread = false := by
      simpa [mainlock_is_vice_thread] using hd
    simpa [mainlock_obtain, Prog.run, hvt] using hbody

/-- The exact effect of `mainlock_release` when the `DEBUG` test does not fire. -/
theorem run_release (debug : Bool) (t : Tid) (s : State) (k : Prog)
    (hd : debug = false ∨ mainlock_is_vice_thread t s = false) :
    (mainlock_release debug k).run t s = k.run t { s with lock := s.lock.erase t } := by
  cases debug
  · simp [mainlock_release, Prog.run, pthread_mutex_unlock]
  · have hvt : pthread_equal t s.vice_thread = false := by
      simpa [mainlock_is_vice_thread] using hd
    simp [mainlock_release, Prog.run, hvt, pthread_mutex_unlock]

theorem run_obtain_iterate (debug : Bool) (t : Tid) (k : Prog) :
    ∀ (n : Nat) (s : State) (m : Nat), s.lock = List.replicate m t →
      (debug = false ∨ mainlock_is_vice_thread t s = false) →
      ∃ s1, ((mainlock_obtain debug)^[n] k).run t s = k.run t s1 ∧
        s1.lock = List.replicate (m + n) t ∧ s1.vice_thread = s.vice_thread
  | 0, s, _, hl, _ => ⟨s, rfl, hl, rfl⟩
  | n + 1, s, m, hl, hd => by
    rw [Function.iterate_succ_apply', run_obtain debug t s _ (available_of_replicate hl) hd]
    obtain ⟨s1, h1, h2, h3⟩ := run_obtain_iterate debug t k n
      { s with lock := t :: s.lock, ui_waiting_for_vice_lock := 0 } (m + 1)
      (by simp [hl, List.replicate_succ]) (by simpa [mainlock_is_vice_thread] using hd)
    exact ⟨s1, h1, by rw [h2]; congr 1; omega, h3⟩

theorem run_release_iterate (debug : Bool) (t : Tid) (k : Prog) :
    ∀ (j : Nat) (s : State) (m : Nat), s.lock = List.replicate m t →
      (debug = false ∨ mainlock_is_vice_thread t s = false) →
      ∃ s1, ((mainlock_release debug)^[j] k).run t s = k.run t s1 ∧
        s1.lock = List.replicate (m - j) t
  | 0, s, _, hl, _ => ⟨s, rfl, hl⟩
  | j + 1, s, m, hl, hd => by
    rw [Function.iterate_succ_apply', run_release debug t s _ hd]
    obtain ⟨s1, h1, h2⟩ := run_release_iterate debug t k j
      { s with lock := s.lock.erase t } (m - 1)
      (by simp [hl]) (by simpa [mainlock_is_vice_thread] using hd)
    exact ⟨s1, h1, by rw [h2]; congr 1; omega⟩

/-- The exact effect of `mainlock_initiate_shutdown` called on the vice thread while
`vice_thread_keepalive` is set: the flag is cleared, `consider_exit` unlocks once, logs,
runs the teardown and ends the thread. -/
theorem run_initiate_shutdown_vice_thread (t : Tid) (s : State)
    (hw : mainlock_is_vice_thread t s = true) (hk : s.vice_thread_keepalive ≠ 0) :
    (mainlock_initiate_shutdown .done).run t s
      = .exited { s with
          lock := s.lock.erase t
          vice_thread_keepalive := 0
          shutdowns := s.shutdowns ++ [t]
          log := s.log ++ ["VICE thread initiating shutdown", "VICE thread is exiting"] } := by
  simp only [mainlock_is_vice_thread] at hw
  simp [mainlock_initiate_shutdown, consider_exit, Prog.run, atomic_flag_check, hk,
    atomic_flag_clear, atomic_store, log_message, hw, pthread_mutex_unlock,
    archdep_thread_shutdown]

/-! ### The claims about single calls -/

/-- C2, counterexample. In a `DEBUG` build, with the mutex free and thread 0 the vice
thread (the state after `mainlock_set_vice_thread` and `mainlock_yield_begin` of
thread 0), `mainlock_obtain` called by thread 0 prints and returns without a grant:
no returned state has thread 0 as owner. -/
theorem obtain_debug_vice_thread_unlocked :
    reachCalls true [.call 0 .set_vice_thread, .call 0 .yield_begin]
      = some { State.statics with vice_thread := some 0 } ∧
    ({ State.statics with vice_thread := some 0 } : State).Free ∧
    (mainlock_obtain true .done).run 0 { State.statics with vice_thread := some 0 }
      = .returned { State.statics with
          vice_thread := some 0,
          log := ["FIXME! VICE thread is trying to obtain the mainlock!\n"] } ∧
    ¬ ∃ s', (mainlock_obtain true .done).run 0 { State.statics with vice_thread := some 0 }
        = .returned s' ∧ s'.owner = some 0 ∧ 1 ≤ s'.count := by
  refine ⟨rfl, rfl, rfl, ?_⟩
  rintro ⟨s', h, ho, -⟩
  have h2 : (mainlock_obtain true .done).run 0 { State.statics with vice_thread := some 0 }
      = .returned { State.statics with
          vice_thread := some 0,
          log := ["FIXME! VICE thread is trying to obtain the mainlock!\n"] } := rfl
  rw [h2] at h
  injection h with h
  subst h
  simp [State.owner, State.statics] at ho

/-- C2, amended. For every thread `t` and every state in which the mutex is free or
held by `t`, `mainlock_obtain` called by `t` returns (it does not wait) with `t` the
owner of the mutex and the recursion count at least 1, provided the build is not a
`DEBUG` build, or `t` is not the vice thread, or the mutex is not free. -/
theorem obtain_returns_holding (debug : Bool) (t : Tid) (s : State)
    (hs : s.Free ∨ ∃ n, s.HeldBy t n)
    (hd : debug = false ∨ mainlock_is_vice_thread t s = false ∨ ¬ s.Free) :
    ∃ s', (mainlock_obtain debug .done).run t s = .returned s' ∧
      s'.owner = some t ∧ 1 ≤ s'.count := by
  have hav : pthread_mutex_available t s = true := by
    rcases hs with h | ⟨n, h⟩
    · exact available_of_free t h
    · exact available_of_heldBy h
  by_cases hv : debug = true ∧ mainlock_is_vice_thread t s = true
  · obtain ⟨hdbg, hvt⟩ := hv
    have hnf : ¬ s.Free := by
      rcases hd with h | h | h
      · simp [hdbg] at h
      · simp [hvt] at h
      · exact h
    obtain ⟨n, hn, hl⟩ : ∃ n, s.HeldBy t n := by
      rcases hs with h | h
      · exact absurd h hnf
      · exact h
    refine ⟨printf "FIXME! VICE thread is trying to obtain the mainlock!\n" t s, ?_, ?_, ?_⟩
    · simp only [mainlock_is_vice_thread] at hvt
      simp [mainlock_obtain, hdbg, Prog.run, hvt]
    · obtain ⟨m, rfl⟩ : ∃ m, n = m + 1 := ⟨n - 1, by omega⟩
      simp [printf, State.owner, hl, List.replicate_succ]
    · simp only [printf, State.count, hl, List.length_replicate]
      omega
  · have hd2 : debug = false ∨ mainlock_is_vice_thread t s = false := by
      cases debug
      · exact Or.inl rfl
      · exact Or.inr (by simpa using hv)
    refine ⟨{ s with lock := t :: s.lock, ui_waiting_for_vice_lock := 0 }, ?_, ?_, ?_⟩
    · rw [run_obtain debug t s .done hav hd2]
      rfl
    · simp [State.owner]
    · simp [State.count]

/-- Witness for `obtain_returns_holding`: a `DEBUG` build, the mutex free, thread 1
is not the vice thread. -/
theorem obtain_returns_holding_witness :
    ∃ s', (mainlock_obtain true .done).run 1 { State.statics with vice_thread := some 0 }
      = .returned s' ∧ s'.owner = some 1 ∧ 1 ≤ s'.count :=
  obtain_returns_holding true 1 { State.statics with vice_thread := some 0 }
    (Or.inl rfl) (Or.inr (Or.inl rfl))

/-- C3, the code at the failing input. Thread 1, not the vice thread, holds the mutex
once (the state after `mainlock_set_vice_thread` and `mainlock_yield_begin` of thread 0
and `mainlock_obtain` of thread 1).  One call of `mainlock_initiate_shutdown` by
thread 1 leaves the mutex held by thread 1; two consecutive calls leave it free: the
second call takes the "already shutting down" path, whose `pthread_mutex_unlock` gives
back the caller's grant. -/
theorem initiate_shutdown_twice_releases :
    reachCalls false [.call 0 .set_vice_thread, .call 0 .yield_begin, .call 1 .obtain]
      = some { State.statics with lock := [1], vice_thread := some 0 } ∧
    (mainlock_initiate_shutdown .done).run 1
        { State.statics with lock := [1], vice_thread := some 0 }
      = .returned { State.statics with
          lock := [1], vice_thread := some 0, vice_thread_keepalive := 0,
          ui_waiting_for_vice_lock := 1, log := ["VICE thread initiating shutdown"] } ∧
    (mainlock_initiate_shutdown (mainlock_initiate_shutdown .done)).run 1
        { State.statics with lock := [1], vice_thread := some 0 }
      = .returned { State.statics with
          lock := [], vice_thread := some 0, vice_thread_keepalive := 0,
          ui_waiting_for_vice_lock := 1, log := ["VICE thread initiating shutdown"] } :=
  ⟨rfl, rfl, rfl⟩

/-- C4, counterexample. Thread 0 is the vice thread and holds the mutex; thread 1 has
called `mainlock_initiate_shutdown`, so `vice_thread_keepalive` is already 0.  A call
of `mainlock_initiate_shutdown` by the vice thread then returns to its caller, and the
teardown has not run. -/
theorem initiate_shutdown_worker_returns :
    reachCalls false [.call 0 .set_vice_thread, .call 1 .initiate_shutdown]
      = some { State.statics with
          lock := [0], vice_thread := some 0, vice_thread_keepalive := 0,
          ui_waiting_for_vice_lock := 1, log := ["VICE thread initiating shutdown"] } ∧
    mainlock_is_vice_thread 0
        { State.statics with
          lock := [0], vice_thread := some 0, vice_thread_keepalive := 0,
          ui_waiting_for_vice_lock := 1, log := ["VICE thread initiating shutdown"] }
      = true ∧
    (mainlock_initiate_shutdown .done).run 0
        { State.statics with
          lock := [0], vice_thread := some 0, vice_thread_keepalive := 0,
          ui_waiting_for_vice_lock := 1, log := ["VICE thread initiating shutdown"] }
      = .returned { State.statics with
          lock := [], vice_thread := some 0, vice_thread_keepalive := 0,
          ui_waiting_for_vice_lock := 1, shutdowns := [],
          log := ["VICE thread initiating shutdown"] } :=
  ⟨rfl, rfl, rfl⟩

/-- C4, amended. For every state in which `vice_thread_keepalive` is set and the
caller is the vice thread, `mainlock_initiate_shutdown` does not return: the call ends
with `pthread_exit`, after `archdep_thread_shutdown` has run once more, on the caller. -/
theorem initiate_shutdown_worker_exits (t : Tid) (s : State)
    (hw : mainlock_is_vice_thread t s = true) (hk : s.vice_thread_keepalive ≠ 0) :
    ∃ s', (mainlock_initiate_shutdown .done).run t s = .exited s' ∧
      s'.shutdowns = s.shutdowns ++ [t] ∧ s'.vice_thread_keepalive = 0 :=
  ⟨_, run_initiate_shutdown_vice_thread t s hw hk, rfl, rfl⟩

/-- Witness for `initiate_shutdown_worker_exits`: the vice thread 0 right after
`mainlock_set_vice_thread`. -/
theorem initiate_shutdown_worker_exits_witness :
    ∃ s', (mainlock_initiate_shutdown .done).run 0
        { State.statics with lock := [0], vice_thread := some 0 } = .exited s' ∧
      s'.shutdowns = [] ++ [0] ∧ s'.vice_thread_keepalive = 0 :=
  initiate_shutdown_worker_exits 0 { State.statics with lock := [0], vice_thread := some 0 }
    rfl (by decide)

/-- C5, counterexample. The vice thread 0 holds the mutex at depth 2 (after
`mainlock_set_vice_thread` and a `mainlock_obtain` of its own in a non-`DEBUG` build)
and calls `mainlock_initiate_shutdown`: the thread ends while the mutex still has one
grant of thread 0, so the mutex is not free. -/
theorem initiate_shutdown_depth_two_keeps_grant :
    reachCalls false [.call 0 .set_vice_thread, .call 0 .obtain]
      = some { State.statics with lock := [0, 0], vice_thread := some 0 } ∧
    ({ State.statics with lock := [0, 0], vice_thread := some 0 } : State).HeldBy 0 2 ∧
    (mainlock_initiate_shutdown .done).run 0
        { State.statics with lock := [0, 0], vice_thread := some 0 }
      = .exited { State.statics with
          lock := [0], vice_thread := some 0, vice_thread_keepalive := 0, shutdowns := [0],
          log := ["VICE thread initiating shutdown", "VICE thread is exiting"] } ∧
    ¬ ({ State.statics with
          lock := [0], vice_thread := some 0, vice_thread_keepalive := 0, shutdowns := [0],
          log := ["VICE thread initiating shutdown", "VICE thread is exiting"] } : State).Free :=
  ⟨rfl, by decide, rfl, by decide⟩

/-- C5, amended. When the vice thread calls `mainlock_initiate_shutdown` with
`vice_thread_keepalive` set while holding the mutex at depth `n ≥ 1`, the shutdown
sequence gives back exactly one grant: the thread ends with the recursion count at
`n - 1`, so the mutex is free afterwards exactly when `n = 1`. -/
theorem initiate_shutdown_worker_unlocks_once (t : Tid) (s : State) (n : Nat)
    (hn : s.HeldBy t n) (hw : mainlock_is_vice_thread t s = true)
    (hk : s.vice_thread_keepalive ≠ 0) :
    ∃ s', (mainlock_initiate_shutdown .done).run t s = .exited s' ∧
      s'.lock = List.replicate (n - 1) t ∧ s'.count = n - 1 ∧ (s'.Free ↔ n = 1) := by
  refine ⟨_, run_initiate_shutdown_vice_thread t s hw hk, ?_, ?_, ?_⟩
  · simp [hn.2]
  · simp [State.count, hn.2]
  · have h0 := hn.1
    simp only [State.Free, hn.2, List.erase_replicate_self, List.replicate_eq_nil_iff]
    omega

/-- Witness for `initiate_shutdown_worker_unlocks_once`: the vice thread 0 holding the
mutex once. -/
theorem initiate_shutdown_worker_unlocks_once_witness :
    ∃ s', (mainlock_initiate_shutdown .done).run 0
        { State.statics with lock := [0], vice_thread := some 0 } = .exited s' ∧
      s'.lock = List.replicate (1 - 1) 0 ∧ s'.count = 1 - 1 ∧ (s'.Free ↔ 1 = 1) :=
  initiate_shutdown_worker_unlocks_once 0
    { State.statics with lock := [0], vice_thread := some 0 } 1 (by decide) rfl (by decide)

/-- C6. For every state with `vice_thread_keepalive` set and every caller that is not
the vice thread, `mainlock_initiate_shutdown` returns, and the state it returns in is
the prior state with `vice_thread_keepalive` cleared to 0, `ui_waiting_for_vice_lock`
set to 1 and one message logged: the mutex (owner and recursion count), `vice_thread`
and the list of teardown runs are as before. -/
theorem initiate_shutdown_other (t : Tid) (s : State)
    (hk : s.vice_thread_keepalive ≠ 0) (hw : mainlock_is_vice_thread t s = false) :
    (mainlock_initiate_shutdown .done).run t s
      = .returned { s with
          vice_thread_keepalive := 0
          ui_waiting_for_vice_lock := 1
          log := s.log ++ ["VICE thread initiating shutdown"] } := by
  simp only [mainlock_is_vice_thread] at hw
  simp [mainlock_initiate_shutdown, Prog.run, atomic_flag_check, hk,
    atomic_flag_clear, atomic_flag_set, atomic_store, log_message, hw]

/-- Witness for `initiate_shutdown_other`: thread 1 calls while the vice thread 0
holds the mutex. -/
theorem initiate_shutdown_other_witness :
    (mainlock_initiate_shutdown .done).run 1
        { State.statics with lock := [0], vice_thread := some 0 }
      = .returned { State.statics with
          lock := [0], vice_thread := some 0, vice_thread_keepalive := 0,
          ui_waiting_for_vice_lock := 1, log := [] ++ ["VICE thread initiating shutdown"] } :=
  initiate_shutdown_other 1 { State.statics with lock := [0], vice_thread := some 0 }
    (by decide) rfl

/-- C7. For every state with `ui_waiting_for_vice_lock` equal to 0, every thread and
every `n`, `n` consecutive calls of `mainlock_yield` return in the very state they
started in (mutex, both flags, `vice_thread` and the sleep count as before) and
perform no atomic effect at all on the way: no unlock, no sleep. -/
theorem yield_idle (t : Tid) (s : State) (n : Nat) (h : s.ui_waiting_for_vice_lock = 0) :
    (mainlock_yield^[n] .done).run t s = .returned s ∧
    (mainlock_yield^[n] .done).trace t s = [] := by
  induction n with
  | zero => exact ⟨rfl, rfl⟩
  | succ n ih =>
    rw [Function.iterate_succ_apply']
    simpa [mainlock_yield, Prog.run, Prog.trace, atomic_flag_check, h] using ih

/-- Witness for `yield_idle`: the vice thread yields 1000 times. -/
theorem yield_idle_witness :
    (mainlock_yield^[1000] .done).run 0 { State.statics with lock := [0], vice_thread := some 0 }
      = .returned { State.statics with lock := [0], vice_thread := some 0 } ∧
    (mainlock_yield^[1000] .done).trace 0
        { State.statics with lock := [0], vice_thread := some 0 } = [] :=
  yield_idle 0 { State.statics with lock := [0], vice_thread := some 0 } 1000 rfl

/-- C9, counterexample. In a `DEBUG` build the vice thread 0 holds the mutex once (the
state after `mainlock_set_vice_thread`).  One further `mainlock_obtain` and then two
`mainlock_release` calls by thread 0, as many releases as acquisitions, only print:
the mutex is still held by thread 0, not free. -/
theorem reentrant_debug_vice_thread_uncounted :
    reachCalls true [.call 0 .set_vice_thread]
      = some { State.statics with lock := [0], vice_thread := some 0 } ∧
    ({ State.statics with lock := [0], vice_thread := some 0 } : State).HeldBy 0 1 ∧
    ((mainlock_obtain true)^[1] ((mainlock_release true)^[2] .done)).run 0
        { State.statics with lock := [0], vice_thread := some 0 }
      = .returned { State.statics with
          lock := [0], vice_thread := some 0,
          log := ["FIXME! VICE thread is trying to obtain the mainlock!\n",
                  "FIXME! VICE thread is trying to release the mainlock!\n",
                  "FIXME! VICE thread is trying to release the mainlock!\n"] } ∧
    ¬ ({ State.statics with
          lock := [0], vice_thread := some 0,
          log := ["FIXME! VICE thread is trying to obtain the mainlock!\n",
                  "FIXME! VICE thread is trying to release the mainlock!\n",
                  "FIXME! VICE thread is trying to release the mainlock!\n"] } : State).Free :=
  ⟨rfl, by decide, rfl, by decide⟩

/-- C9, amended. In a build without `DEBUG`, or for a thread `t` that is not the vice
thread: when `t` holds the mutex with recursion count `m ≥ 1`, any `n` further
`mainlock_obtain` calls by `t` followed by any `j` `mainlock_release` calls by `t` all
return without waiting, and leave the recursion count at `m + n - j` with `t` the owner
as long as the count is positive; the mutex is free exactly when `j` has reached the
number `m + n` of acquisitions, not after fewer releases. -/
theorem reentrant_counted (debug : Bool) (t : Tid) (s : State) (m n j : Nat)
    (hm : s.HeldBy t m)
    (hd : debug = false ∨ mainlock_is_vice_thread t s = false) :
    ∃ s', ((mainlock_obtain debug)^[n] ((mainlock_release debug)^[j] .done)).run t s
        = .returned s' ∧
      s'.count = m + n - j ∧ (0 < s'.count → s'.owner = some t) ∧
      (s'.Free ↔ m + n ≤ j) := by
  obtain ⟨s1, h1, hl1, hv1⟩ := run_obtain_iterate debug t
    ((mainlock_release debug)^[j] .done) n s m hm.2 hd
  obtain ⟨s2, h2, hl2⟩ := run_release_iterate debug t .done j s1 (m + n) hl1
    (by simpa [mainlock_is_vice_thread, hv1] using hd)
  refine ⟨s2, by rw [h1, h2]; rfl, by simp [State.count, hl2], ?_, ?_⟩
  · intro h
    simp only [State.count, hl2, List.length_replicate] at h
    simp only [State.owner, hl2, List.head?_replicate]
    rw [if_neg (by omega)]
  · simp only [State.Free, hl2, List.replicate_eq_nil_iff]
    omega

/-- Witness for `reentrant_counted`: thread 0 holds once, obtains three more times and
releases four times. -/
theorem reentrant_counted_witness :
    ∃ s', ((mainlock_obtain false)^[3] ((mainlock_release false)^[4] .done)).run 0
          { State.statics with lock := [0], vice_thread := some 0 } = .returned s' ∧
      s'.count = 1 + 3 - 4 ∧ (0 < s'.count → s'.owner = some 0) ∧ (s'.Free ↔ 1 + 3 ≤ 4) :=
  reentrant_counted false 0 { State.statics with lock := [0], vice_thread := some 0 } 1 3 4
    (by decide) (Or.inl rfl)

/-! ### Sequences of whole calls: the keepalive flag -/

theorem Prog.settle_good {I : State → Prop} {P : (Tid → State → State) → Prop}
    (hact : ∀ f, P f → ∀ t s, I s → I (f t s))
    (hgrant : ∀ t s, I s → pthread_mutex_available t s = true → I (pthread_mutex_grant t s))
    (t : Tid) :
    ∀ (p : Prog) (s : State), p.Forall P → I s →
      I (p.settle t s).2 ∧ ∀ q, (p.settle t s).1 = .busy q → q.Forall P
  | .done, s, _, hs => ⟨hs, fun q hq => by simp [Prog.settle] at hq⟩
  | .pthread_exit, s, _, hs => ⟨hs, fun q hq => by simp [Prog.settle] at hq⟩
  | .lock k, s, hp, hs => by
    by_cases hav : pthread_mutex_available t s = true
    · simp only [Prog.settle, hav, if_true]
      exact Prog.settle_good hact hgrant t k _ hp (hgrant t s hs hav)
    · simp only [Prog.settle, hav]
      refine ⟨hs, fun q hq => ?_⟩
      simp only [Bool.false_eq_true, if_false, Thread.busy.injEq] at hq
      subst hq
      exact hp
  | .act f k, s, hp, hs => by
    simp only [Prog.settle]
    exact Prog.settle_good hact hgrant t k _ hp.2 (hact f hp.1 t s hs)
  | .test c a b, s, hp, hs => by
    simp only [Prog.settle]
    split
    · exact Prog.settle_good hact hgrant t a _ hp.1 hs
    · exact Prog.settle_good hact hgrant t b _ hp.2 hs

theorem body_keepsKeepalive (debug : Bool) (op : Op) (h : op ≠ .initiate_shutdown) :
    (Op.body debug op).Forall KeepsKeepalive := by
  cases op <;> cases debug <;>
    simp [Op.body, Prog.Forall, KeepsKeepalive, mainlock_set_vice_thread, mainlock_obtain,
      mainlock_release, mainlock_yield, mainlock_yield_begin, mainlock_yield_end,
      consider_exit, tick_sleep, store_vice_thread,
      atomic_flag_set, atomic_flag_clear, atomic_store, printf, log_message, log_error,
      archdep_thread_shutdown, archdep_sleep, pthread_mutex_unlock] at h ⊢

theorem settle_initiate_shutdown (t : Tid) (s : State) :
    ((mainlock_initiate_shutdown .done).settle t s).2.vice_thread_keepalive = 0 ∧
    ∀ q, ((mainlock_initiate_shutdown .done).settle t s).1 ≠ .busy q := by
  by_cases hk : s.vice_thread_keepalive = 0 <;>
  by_cases hv : pthread_equal t s.vice_thread = true <;>
    simp [mainlock_initiate_shutdown, consider_exit, Prog.settle, atomic_flag_check, hk, hv,
      atomic_flag_clear, atomic_flag_set, atomic_store, log_message, pthread_mutex_unlock,
      archdep_thread_shutdown]

theorem Config.Calm.settle {c : Config} (hc : c.Calm) (t : Tid) (p : Prog)
    (hp : p.Forall KeepsKeepalive) :
    Config.Calm { st := (p.settle t c.st).2, thr := Function.update c.thr t (p.settle t c.st).1 } ∧
    (p.settle t c.st).2.vice_thread_keepalive = c.st.vice_thread_keepalive := by
  have h := Prog.settle_good (I := fun s => s.vice_thread_keepalive = c.st.vice_thread_keepalive)
    (P := KeepsKeepalive) (fun f hf t s hs => (hf t s).trans hs)
    (fun t s hs _ => hs) t p c.st hp rfl
  refine ⟨fun u q hu => ?_, h.1⟩
  by_cases htu : u = t
  · subst htu
    simp only [Function.update_same] at hu
    exact h.2 q hu
  · simp only [Function.update_noteq htu] at hu
    exact hc u q hu

theorem Config.Calm.move {debug : Bool} {c c1 : Config} {m : Move} (hc : c.Calm)
    (h : c.move debug m = some c1) :
    c1.Calm ∧ c1.st.vice_thread_keepalive = m.keepalive c.st.vice_thread_keepalive := by
  cases m with
  | call t op =>
    simp only [Config.move] at h
    split at h
    · injection h with h
      subst h
      by_cases hop : op = .initiate_shutdown
      · subst hop
        have hs := settle_initiate_shutdown t c.st
        refine ⟨fun u q hu => ?_, hs.1⟩
        by_cases htu : u = t
        · subst htu
          simp only [Function.update_same] at hu
          exact absurd hu (hs.2 q)
        · simp only [Function.update_noteq htu] at hu
          exact hc u q hu
      · have := hc.settle t (op.body debug) (body_keepsKeepalive debug op hop)
        refine ⟨this.1, ?_⟩
        rw [this.2]
        cases op <;> simp_all [Move.keepalive]
    · cases h
  | resume t =>
    simp only [Config.move] at h
    split at h
    · rename_i k hk
      split at h
      · injection h with h
        subst h
        exact hc.settle t (.lock k) (hc t _ hk)
      · cases h
    · cases h

theorem Config.Calm.play {debug : Bool} :
    ∀ (ms : List Move) (c c1 : Config), c.Calm → c.play debug ms = some c1 →
      c1.st.vice_thread_keepalive
        = if shutdownCalled ms then 0 else c.st.vice_thread_keepalive
  | [], c, c1, _, h => by
    simp only [Config.play, Option.some.injEq] at h
    simp [shutdownCalled, h]
  | m :: ms, c, c1, hc, h => by
    simp only [Config.play] at h
    cases hn : c.move debug m with
    | none => simp [hn] at h
    | some c2 =>
      simp only [hn, Option.some_bind] at h
      have h2 := hc.move hn
      rw [Config.Calm.play ms c2 c1 h2.1 h, h2.2]
      cases m with
      | call t op => cases op <;> simp [shutdownCalled, Move.keepalive]
      | resume t => simp [shutdownCalled, Move.keepalive]

theorem shutdownCalled_append (ms ms' : List Move) (h : shutdownCalled ms = true) :
    shutdownCalled (ms ++ ms') = true := by
  simp only [shutdownCalled, List.any_append, Bool.or_eq_true] at h ⊢
  exact Or.inl h

/-- C10. In every state reached from the initialised mainlock by a sequence of
operations, in either build, `vice_thread_keepalive` is 0 if
`mainlock_initiate_shutdown` has been called in the sequence and 1 otherwise: it is
cleared if and only if `mainlock_initiate_shutdown` has been called at least once.  It
is 1 in the initial state, and once it is 0 it is 0 after every further sequence of
operations. -/
theorem keepalive_cleared_iff_shutdown_called (debug : Bool) (ms ms' : List Move)
    (s s' : State) (h : reachCalls debug ms = some s)
    (h' : reachCalls debug (ms ++ ms') = some s') :
    reachCalls debug [] = some (mainlock_init State.statics) ∧
    (mainlock_init State.statics).vice_thread_keepalive = 1 ∧
    s.vice_thread_keepalive = (if shutdownCalled ms then 0 else 1) ∧
    (s.vice_thread_keepalive = 0 ↔ shutdownCalled ms = true) ∧
    (s.vice_thread_keepalive = 0 → s'.vice_thread_keepalive = 0) := by
  have hboot : Config.boot.Calm := fun t p ht => by simp [Config.boot] at ht
  have key : ∀ (l : List Move) (r : State), reachCalls debug l = some r →
      r.vice_thread_keepalive = if shutdownCalled l then 0 else 1 := by
    intro l r hr
    simp only [reachCalls, Option.map_eq_some'] at hr
    obtain ⟨c, hc, rfl⟩ := hr
    exact hboot.play l _ c hc
  have hs := key ms s h
  have hs' := key _ s' h'
  refine ⟨rfl, rfl, hs, ?_, ?_⟩
  · rw [hs]
    split <;> simp_all
  · intro h0
    rw [hs] at h0
    have hc : shutdownCalled ms = true := by
      by_contra hne
      simp [hne] at h0
    rw [hs', shutdownCalled_append ms ms' hc]
    rfl

/-- Witness for `keepalive_cleared_iff_shutdown_called`: thread 0 becomes the vice
thread, thread 1 requests the shutdown, and the next `mainlock_yield` of thread 0 ends
it. -/
theorem keepalive_cleared_iff_shutdown_called_witness :
    reachCalls false [] = some (mainlock_init State.statics) ∧
    (mainlock_init State.statics).vice_thread_keepalive = 1 ∧
    (0 : Int) = (if shutdownCalled [.call 0 .set_vice_thread, .call 1 .initiate_shutdown]
      then 0 else 1) ∧
    ((0 : Int) = 0 ↔ shutdownCalled [.call 0 .set_vice_thread, .call 1 .initiate_shutdown] = true) ∧
    ((0 : Int) = 0 → (0 : Int) = 0) :=
  keepalive_cleared_iff_shutdown_called false
    [.call 0 .set_vice_thread, .call 1 .initiate_shutdown] [.call 0 .yield]
    { State.statics with
        lock := [0], vice_thread := some 0, vice_thread_keepalive := 0,
        ui_waiting_for_vice_lock := 1, log := ["VICE thread initiating shutdown"] }
    { State.statics with
        lock := [], vice_thread := some 0, vice_thread_keepalive := 0,
        ui_waiting_for_vice_lock := 1, shutdowns := [0], sleeps := 1,
        log := ["VICE thread initiating shutdown", "VICE thread is exiting"] }
    (by rfl) (by rfl)

/-! ### More single calls -/

/-- The outcome of `mainlock_yield_end` followed by `k`, in every state. -/
theorem run_yield_end (t : Tid) (s : State) (k : Prog) :
    (mainlock_yield_end k).run t s =
      if pthread_mutex_available t s = true then
        if s.vice_thread_keepalive = 0 ∧ mainlock_is_vice_thread t s = true then
          .exited { s with
            shutdowns := s.shutdowns ++ [t]
            log := s.log ++ ["VICE thread is exiting"] }
        else k.run t (pthread_mutex_grant t s)
      else .blocked s := by
  by_cases hav : pthread_mutex_available t s = true
  · by_cases hk : s.vice_thread_keepalive = 0
    · by_cases hv : pthread_equal t s.vice_thread = true
      · simp [mainlock_yield_end, consider_exit, Prog.run, hav, hk, hv, atomic_flag_check,
          pthread_mutex_grant, pthread_mutex_unlock, log_message, archdep_thread_shutdown,
          mainlock_is_vice_thread]
      · simp [mainlock_yield_end, consider_exit, Prog.run, hav, hk, hv, atomic_flag_check,
          pthread_mutex_grant, mainlock_is_vice_thread]
    · simp [mainlock_yield_end, consider_exit, Prog.run, hav, hk, atomic_flag_check,
        pthread_mutex_grant]
  · simp [mainlock_yield_end, Prog.run, hav]

/-- The outcome of `mainlock_yield` when `ui_waiting_for_vice_lock` is set: the unlock
and the sleep of `tick_sleep`, then `mainlock_yield_end`. -/
theorem run_yield_waiting (t : Tid) (s : State) (k : Prog)
    (hu : s.ui_waiting_for_vice_lock ≠ 0) :
    (mainlock_yield k).run t s
      = (mainlock_yield_end k).run t (archdep_sleep t (pthread_mutex_unlock t s)) := by
  simp [mainlock_yield, tick_sleep, mainlock_yield_begin, Prog.run, atomic_flag_check, hu]

/-- The outcome of `mainlock_obtain` when the mutex is not available and the `DEBUG`
test does not fire: the caller waits with `ui_waiting_for_vice_lock` set. -/
theorem run_obtain_blocked (debug : Bool) (t : Tid) (s : State) (k : Prog)
    (hav : pthread_mutex_available t s = false)
    (hd : debug = false ∨ mainlock_is_vice_thread t s = false) :
    (mainlock_obtain debug k).run t s
      = .blocked { s with ui_waiting_for_vice_lock := 1 } := by
  have hav2 : pthread_mutex_available t (atomic_flag_set .ui_waiting_for_vice_lock t s) = false := by
    simpa [pthread_mutex_available, atomic_flag_set, atomic_store] using hav
  have hbody : (Prog.act (atomic_flag_set .ui_waiting_for_vice_lock)
      (.lock (.act (atomic_flag_clear .ui_waiting_for_vice_lock) k))).run t s
      = .blocked { s with ui_waiting_for_vice_lock := 1 } := by
    simp only [Prog.run, hav2]
    simp [atomic_flag_set, atomic_store]
  cases debug
  · simpa [mainlock_obtain] using hbody
  · have hvt : pthread_equal t s.vice_thread = false := by
      simpa [mainlock_is_vice_thread] using hd
    simpa [mainlock_obtain, Prog.run, hvt] using hbody

/-- The states `mainlock_obtain` passes through when the `DEBUG` test does not fire. -/
theorem trace_obtain (debug : Bool) (t : Tid) (s : State)
    (hd : debug = false ∨ mainlock_is_vice_thread t s = false) :
    (mainlock_obtain debug .done).trace t s =
      if pthread_mutex_available t s = true then
        [{ s with ui_waiting_for_vice_lock := 1 },
         { s with lock := t :: s.lock, ui_waiting_for_vice_lock := 1 },
         { s with lock := t :: s.lock, ui_waiting_for_vice_lock := 0 }]
      else [{ s with ui_waiting_for_vice_lock := 1 }] := by
  have hav2 : pthread_mutex_available t (atomic_flag_set .ui_waiting_for_vice_lock t s)
      = pthread_mutex_available t s := by
    simp [pthread_mutex_available, atomic_flag_set, atomic_store]
  have hbody : (Prog.act (atomic_flag_set .ui_waiting_for_vice_lock)
      (.lock (.act (atomic_flag_clear .ui_waiting_for_vice_lock) .done))).trace t s
      = if pthread_mutex_available t s = true then
        [{ s with ui_waiting_for_vice_lock := 1 },
         { s with lock := t :: s.lock, ui_waiting_for_vice_lock := 1 },
         { s with lock := t :: s.lock, ui_waiting_for_vice_lock := 0 }]
      else [{ s with ui_waiting_for_vice_lock := 1 }] := by
    simp only [Prog.trace, hav2]
    split <;> simp [atomic_flag_set, atomic_flag_clear, atomic_store, pthread_mutex_grant]
  cases debug
  · simpa [mainlock_obtain] using hbody
  · have hvt : pthread_equal t s.vice_thread = false := by
      simpa [mainlock_is_vice_thread] using hd
    simpa [mainlock_obtain, Prog.trace, hvt] using hbody

/-- C11, counterexample. Non-`DEBUG` build: thread 0 is the vice thread, thread 1 has
requested the shutdown, and thread 0 has since obtained and released the mainlock
itself, which cleared `ui_waiting_for_vice_lock`; thread 0 holds the mutex once.  Now
thread 1 calls `mainlock_initiate_shutdown` (again): it returns and changes nothing.
The next `mainlock_yield` of thread 0 returns to its caller: the vice thread is not
ended. -/
theorem shutdown_then_yield_returns :
    reachCalls false [.call 0 .set_vice_thread, .call 1 .initiate_shutdown,
        .call 0 .obtain, .call 0 .release]
      = some { State.statics with
          lock := [0], vice_thread := some 0, vice_thread_keepalive := 0,
          log := ["VICE thread initiating shutdown"] } ∧
    ({ State.statics with
        lock := [0], vice_thread := some 0, vice_thread_keepalive := 0,
        log := ["VICE thread initiating shutdown"] } : State).HeldBy 0 1 ∧
    (mainlock_initiate_shutdown .done).run 1
        { State.statics with
          lock := [0], vice_thread := some 0, vice_thread_keepalive := 0,
          log := ["VICE thread initiating shutdown"] }
      = .returned { State.statics with
          lock := [0], vice_thread := some 0, vice_thread_keepalive := 0,
          log := ["VICE thread initiating shutdown"] } ∧
    (mainlock_yield .done).run 0
        { State.statics with
          lock := [0], vice_thread := some 0, vice_thread_keepalive := 0,
          log := ["VICE thread initiating shutdown"] }
      = .returned { State.statics with
          lock := [0], vice_thread := some 0, vice_thread_keepalive := 0,
          log := ["VICE thread initiating shutdown"] } :=
  ⟨rfl, by decide, rfl, rfl⟩

/-- C11, amended. In every state in which the vice thread `w` holds the mutex, a call
of `mainlock_initiate_shutdown` by a thread `t` that is not the vice thread returns, and
in the state it returns in: the next `mainlock_yield_end` of `w` ends the thread `w`
after one teardown on `w`; and, if `vice_thread_keepalive` was set before the call of
`t` (or `ui_waiting_for_vice_lock` was already set), the next `mainlock_yield` of `w`
sleeps once and then ends the thread `w` after one teardown on `w`. -/
theorem shutdown_ends_worker (t w : Tid) (s : State) (n : Nat)
    (hw : mainlock_is_vice_thread w s = true) (ht : mainlock_is_vice_thread t s = false)
    (hn : s.HeldBy w n) :
    ∃ s1, (mainlock_initiate_shutdown .done).run t s = .returned s1 ∧
      (∃ s2, (mainlock_yield_end .done).run w s1 = .exited s2 ∧
        s2.shutdowns = s.shutdowns ++ [w]) ∧
      (s.vice_thread_keepalive ≠ 0 ∨ s.ui_waiting_for_vice_lock ≠ 0 →
        ∃ s3, (mainlock_yield .done).run w s1 = .exited s3 ∧
          s3.shutdowns = s.shutdowns ++ [w] ∧ s3.sleeps = s.sleeps + 1) := by
  have hvw : s.vice_thread = some w := by simpa [mainlock_is_vice_thread, pthread_equal] using hw
  have htw : t ≠ w := by
    rintro rfl
    rw [hw] at ht
    cases ht
  obtain ⟨m, rfl⟩ : ∃ m, n = m + 1 := ⟨n - 1, by have := hn.1; omega⟩
  have hl : s.lock = w :: List.replicate m w := by rw [hn.2, List.replicate_succ]
  have herase : s.lock.erase t = s.lock := by
    apply List.erase_of_not_mem
    rw [hn.2]
    intro hmem
    exact htw (List.eq_of_mem_replicate hmem)
  -- the state after the call of `t`
  obtain ⟨s1, h1, hk1, hv1, hl1, hs1, hsl1, hu1⟩ : ∃ s1,
      (mainlock_initiate_shutdown .done).run t s = .returned s1 ∧
      s1.vice_thread_keepalive = 0 ∧ s1.vice_thread = some w ∧ s1.lock = s.lock ∧
      s1.shutdowns = s.shutdowns ∧ s1.sleeps = s.sleeps ∧
      (s.vice_thread_keepalive ≠ 0 ∨ s.ui_waiting_for_vice_lock ≠ 0 →
        s1.ui_waiting_for_vice_lock ≠ 0) := by
    simp only [mainlock_is_vice_thread] at ht
    by_cases hk : s.vice_thread_keepalive = 0
    · refine ⟨pthread_mutex_unlock t s, ?_, hk, hvw, herase, rfl, rfl, ?_⟩
      · simp [mainlock_initiate_shutdown, Prog.run, atomic_flag_check, hk]
      · rintro (h | h)
        · exact absurd hk h
        · exact h
    · refine ⟨{ s with
          vice_thread_keepalive := 0
          ui_waiting_for_vice_lock := 1
          log := s.log ++ ["VICE thread initiating shutdown"] }, ?_, rfl, hvw, rfl, rfl, rfl,
        fun _ => by simp⟩
      simp [mainlock_initiate_shutdown, Prog.run, atomic_flag_check, hk,
        atomic_flag_clear, atomic_flag_set, atomic_store, log_message, ht]
  have hvice1 : ∀ r : State, r.vice_thread = some w → mainlock_is_vice_thread w r = true := by
    intro r hr
    simp [mainlock_is_vice_thread, pthread_equal, hr]
  refine ⟨s1, h1, ?_, fun hor => ?_⟩
  · refine ⟨{ s1 with
        shutdowns := s1.shutdowns ++ [w]
        log := s1.log ++ ["VICE thread is exiting"] }, ?_, ?_⟩
    · rw [run_yield_end, if_pos (available_of_replicate (hl1.trans hn.2)),
        if_pos ⟨hk1, hvice1 s1 hv1⟩]
    · simp [hs1]
  · have hu := hu1 hor
    refine ⟨{ archdep_sleep w (pthread_mutex_unlock w s1) with
        shutdowns := (archdep_sleep w (pthread_mutex_unlock w s1)).shutdowns ++ [w]
        log := (archdep_sleep w (pthread_mutex_unlock w s1)).log
          ++ ["VICE thread is exiting"] }, ?_, ?_, ?_⟩
    · rw [run_yield_waiting w s1 .done hu, run_yield_end, if_pos, if_pos]
      · exact ⟨by simpa [archdep_sleep, pthread_mutex_unlock] using hk1,
          hvice1 _ (by simpa [archdep_sleep, pthread_mutex_unlock] using hv1)⟩
      · simp [pthread_mutex_available, archdep_sleep, pthread_mutex_unlock, hl1, hl]
    · simp [archdep_sleep, pthread_mutex_unlock, hs1]
    · simp [archdep_sleep, pthread_mutex_unlock, hsl1]

/-- Witness for `shutdown_ends_worker`: thread 1 requests the shutdown while the vice
thread 0 holds the mutex once. -/
theorem shutdown_ends_worker_witness :
    ∃ s1, (mainlock_initiate_shutdown .done).run 1
        { State.statics with lock := [0], vice_thread := some 0 } = .returned s1 ∧
      (∃ s2, (mainlock_yield_end .done).run 0 s1 = .exited s2 ∧
        s2.shutdowns = [] ++ [0]) ∧
      ((1 : Int) ≠ 0 ∨ (0 : Int) ≠ 0 →
        ∃ s3, (mainlock_yield .done).run 0 s1 = .exited s3 ∧
          s3.shutdowns = [] ++ [0] ∧ s3.sleeps = 0 + 1) :=
  shutdown_ends_worker 1 0 { State.statics with lock := [0], vice_thread := some 0 } 1
    rfl rfl (by decide)

/-- C12. `mainlock_yield_end` in every state: when the mutex is not available to the
caller, the caller waits; when it is, the caller takes it and then, if and only if
`vice_thread_keepalive` is 0 and the caller is the vice thread, gives the grant back,
logs, runs the teardown and ends (the call does not return); in every other case the
call returns with the new grant held by the caller, and no teardown has run. -/
theorem yield_end_outcome (t : Tid) (s : State) :
    (mainlock_yield_end .done).run t s =
      if pthread_mutex_available t s = true then
        if s.vice_thread_keepalive = 0 ∧ mainlock_is_vice_thread t s = true then
          .exited { s with
            shutdowns := s.shutdowns ++ [t]
            log := s.log ++ ["VICE thread is exiting"] }
        else .returned (pthread_mutex_grant t s)
      else .blocked s := by
  rw [run_yield_end]
  rfl

/-- C14. For every thread `t` and every state in which the mutex is free,
`mainlock_set_vice_thread` called by `t` returns, in the prior state with the mutex held
once by `t` and `vice_thread` equal to `t`: both flags are as before. -/
theorem set_vice_thread_free (t : Tid) (s : State) (h : s.Free) :
    (mainlock_set_vice_thread .done).run t s
      = .returned { s with lock := [t], vice_thread := some t } := by
  have hl : s.lock = [] := h
  simp [mainlock_set_vice_thread, Prog.run, pthread_mutex_available, hl, pthread_mutex_grant,
    store_vice_thread]

/-- Witness for `set_vice_thread_free`: thread 0 at program start. -/
theorem set_vice_thread_free_witness :
    (mainlock_set_vice_thread .done).run 0 State.statics
      = .returned { State.statics with lock := [0], vice_thread := some 0 } :=
  set_vice_thread_free 0 State.statics rfl

/-- C15, counterexample. Two returns of `mainlock_obtain` with
`ui_waiting_for_vice_lock` equal to 1.  First, a `DEBUG` build: thread 0 is the vice
thread and thread 1 has requested the shutdown, which set the flag; `mainlock_obtain`
called by thread 0 prints and returns with the flag still 1.  Second, a build without
`DEBUG`: thread 1 calls `mainlock_obtain`, is granted the free mutex and clears the
flag; before its call returns thread 2 calls `mainlock_obtain` and sets the flag; the
call of thread 1 then returns with the flag equal to 1. -/
theorem obtain_returns_with_flag_set :
    (reachCalls true [.call 0 .set_vice_thread, .call 1 .initiate_shutdown]
        = some { State.statics with
            lock := [0], vice_thread := some 0, vice_thread_keepalive := 0,
            ui_waiting_for_vice_lock := 1, log := ["VICE thread initiating shutdown"] } ∧
      (mainlock_obtain true .done).run 0
          { State.statics with
            lock := [0], vice_thread := some 0, vice_thread_keepalive := 0,
            ui_waiting_for_vice_lock := 1, log := ["VICE thread initiating shutdown"] }
        = .returned { State.statics with
            lock := [0], vice_thread := some 0, vice_thread_keepalive := 0,
            ui_waiting_for_vice_lock := 1,
            log := ["VICE thread initiating shutdown",
                    "FIXME! VICE thread is trying to obtain the mainlock!\n"] }) ∧
    (∃ c, Config.boot.exec false
          [.call 1 .obtain, .step 1, .step 1, .step 1, .call 2 .obtain, .step 2] = some c ∧
        c.st = { State.statics with lock := [1], ui_waiting_for_vice_lock := 1 } ∧
        c.thr 1 = .busy .done ∧
        c.thr 2 = .busy (.lock (.act (atomic_flag_clear .ui_waiting_for_vice_lock) .done))) ∧
    (∃ c, Config.boot.exec false
          [.call 1 .obtain, .step 1, .step 1, .step 1, .call 2 .obtain, .step 2, .step 1]
            = some c ∧
        c.st = { State.statics with lock := [1], ui_waiting_for_vice_lock := 1 } ∧
        c.thr 1 = .idle) :=
  ⟨⟨rfl, rfl⟩, ⟨_, rfl, rfl, rfl, rfl⟩, ⟨_, rfl, rfl, rfl⟩⟩

/-- C15, amended. For a caller `t` of `mainlock_obtain` in a build without `DEBUG`, or
one that is not the vice thread, whatever the other threads are doing.  Step by step:
the call first stores 1 in `ui_waiting_for_vice_lock` and then stands at the
`pthread_mutex_lock`; there it takes no step as long as the mutex is not available to
it; once the mutex is available, whatever the state has become meanwhile, its next step
takes the mutex and leaves it before the clear; from there its two last steps store 0 in
the flag and return, so that the flag is 0 at the return when no other thread takes a
step between the two.  With whole calls as the steps: a waiting call that is resumed,
and a call that finds the mutex available, take the mutex and return with the flag equal
to 0, whatever the flag was before; a call that finds the mutex not available waits with
the flag equal to 1. -/
theorem obtain_flag_protocol (debug : Bool) (t : Tid) :
    (∀ c : Config, c.thr t = .idle →
      (debug = false ∨ mainlock_is_vice_thread t c.st = false) →
      ∃ c1, c.exec debug (.call t .obtain :: .step t :: (if debug then [.step t] else []))
          = some c1 ∧
        c1.st = { c.st with ui_waiting_for_vice_lock := 1 } ∧
        c1.thr t = .busy (.lock (.act (atomic_flag_clear .ui_waiting_for_vice_lock) .done))) ∧
    (∀ c : Config,
      c.thr t = .busy (.lock (.act (atomic_flag_clear .ui_waiting_for_vice_lock) .done)) →
      (pthread_mutex_available t c.st = false → c.next debug (.step t) = none) ∧
      (pthread_mutex_available t c.st = true →
        ∃ c1, c.next debug (.step t) = some c1 ∧
          c1.st = { c.st with lock := t :: c.st.lock } ∧
          c1.thr t = .busy (.act (atomic_flag_clear .ui_waiting_for_vice_lock) .done))) ∧
    (∀ c : Config,
      c.thr t = .busy (.act (atomic_flag_clear .ui_waiting_for_vice_lock) .done) →
      ∃ c2, c.exec debug [.step t, .step t] = some c2 ∧
        c2.st = { c.st with ui_waiting_for_vice_lock := 0 } ∧
        c2.thr t = .idle) ∧
    (∀ c : Config,
      c.thr t = .busy (.lock (.act (atomic_flag_clear .ui_waiting_for_vice_lock) .done)) →
      pthread_mutex_available t c.st = true →
      ∃ c3, c.move debug (.resume t) = some c3 ∧
        c3.st = { c.st with lock := t :: c.st.lock, ui_waiting_for_vice_lock := 0 } ∧
        c3.thr t = .idle) ∧
    (∀ c : Config, c.thr t = .idle →
      (debug = false ∨ mainlock_is_vice_thread t c.st = false) →
      ∃ c3, c.move debug (.call t .obtain) = some c3 ∧
        (pthread_mutex_available t c.st = true →
          c3.st = { c.st with lock := t :: c.st.lock, ui_waiting_for_vice_lock := 0 } ∧
          c3.thr t = .idle) ∧
        (pthread_mutex_available t c.st = false →
          c3.st = { c.st with ui_waiting_for_vice_lock := 1 } ∧
          c3.thr t
            = .busy (.lock (.act (atomic_flag_clear .ui_waiting_for_vice_lock) .done)))) := by
  refine ⟨?_, ?_, ?_, ?_, ?_⟩
  · intro c hi hd
    cases debug with
    | false =>
      refine ⟨⟨{ c.st with ui_waiting_for_vice_lock := 1 },
        Function.update (Function.update c.thr t (.busy (mainlock_obtain false .done))) t
          (.busy (.lock (.act (atomic_flag_clear .ui_waiting_for_vice_lock) .done)))⟩,
        ?_, rfl, by simp⟩
      simp only [Config.exec, Config.next, hi, Op.body, mainlock_obtain, Bool.false_eq_true,
        if_false, Option.bind, Function.update_same]
      rfl
    | true =>
      have hv : pthread_equal t c.st.vice_thread = false := by
        rcases hd with h | h
        · cases h
        · exact h
      refine ⟨⟨{ c.st with ui_waiting_for_vice_lock := 1 },
        Function.update (Function.update
          (Function.update c.thr t (.busy (mainlock_obtain true .done))) t
            (.busy (.act (atomic_flag_set .ui_waiting_for_vice_lock) <| .lock <|
              .act (atomic_flag_clear .ui_waiting_for_vice_lock) .done))) t
          (.busy (.lock (.act (atomic_flag_clear .ui_waiting_for_vice_lock) .done)))⟩,
        ?_, rfl, by simp⟩
      simp only [Config.exec, Config.next, hi, Op.body, mainlock_obtain, if_true,
        Option.bind, Function.update_same, hv, Bool.false_eq_true, if_false]
      rfl
  · intro c hb
    constructor
    · intro hav
      simp [Config.next, hb, hav]
    · intro hav
      refine ⟨⟨{ c.st with lock := t :: c.st.lock },
        Function.update c.thr t
          (.busy (.act (atomic_flag_clear .ui_waiting_for_vice_lock) .done))⟩, ?_, rfl, by simp⟩
      simp only [Config.next, hb, hav, if_true]
      rfl
  · intro c hb
    refine ⟨⟨{ c.st with ui_waiting_for_vice_lock := 0 },
      Function.update (Function.update c.thr t (.busy .done)) t .idle⟩, ?_, rfl, by simp⟩
    simp only [Config.exec, Config.next, hb, Option.bind, Function.update_same]
    rfl
  · intro c hb hav
    refine ⟨⟨{ c.st with lock := t :: c.st.lock, ui_waiting_for_vice_lock := 0 },
      Function.update c.thr t .idle⟩, ?_, rfl, by simp⟩
    simp only [Config.move, hb, hav, if_true, Prog.settle, pthread_mutex_grant]
    rfl
  · intro c hi hd
    have hset : (mainlock_obtain debug .done).settle t c.st
        = (Prog.lock (.act (atomic_flag_clear .ui_waiting_for_vice_lock) .done)).settle t
            { c.st with ui_waiting_for_vice_lock := 1 } := by
      cases debug with
      | false => rfl
      | true =>
        have hv : pthread_equal t c.st.vice_thread = false := by
          rcases hd with h | h
          · cases h
          · exact h
        simp only [mainlock_obtain, if_true, Prog.settle, hv, Bool.false_eq_true, if_false]
        rfl
    have hav1 : pthread_mutex_available t { c.st with ui_waiting_for_vice_lock := 1 }
        = pthread_mutex_available t c.st := rfl
    refine ⟨⟨((mainlock_obtain debug .done).settle t c.st).2,
      Function.update c.thr t ((mainlock_obtain debug .done).settle t c.st).1⟩,
      by simp only [Config.move, hi, Op.body], ?_, ?_⟩
    · intro hav
      rw [hset]
      simp only [Prog.settle, hav1, hav, if_true, Function.update_same, and_true]
      rfl
    · intro hav
      rw [hset]
      simp only [Prog.settle, hav1, hav, Bool.false_eq_true, if_false, Function.update_same,
        and_true]

/-- Witness for `obtain_flag_protocol`: thread 1 calls `mainlock_obtain` after
`mainlock_init` and takes its first step. -/
theorem obtain_flag_protocol_witness :
    ∃ c1, Config.boot.exec false [.call 1 .obtain, .step 1] = some c1 ∧
      c1.st = { Config.boot.st with ui_waiting_for_vice_lock := 1 } ∧
      c1.thr 1 = .busy (.lock (.act (atomic_flag_clear .ui_waiting_for_vice_lock) .done)) :=
  (obtain_flag_protocol false 1).1 Config.boot rfl (Or.inl rfl)

/-- C16, counterexample. The vice thread 0 holds the mutex at depth 2 (after
`mainlock_set_vice_thread` and a `mainlock_obtain` of its own in a non-`DEBUG` build).
After `mainlock_yield_begin` the mutex is still held by thread 0: it is not free and not
available to thread 1. -/
theorem yield_begin_depth_two_not_free :
    reachCalls false [.call 0 .set_vice_thread, .call 0 .obtain]
      = some { State.statics with lock := [0, 0], vice_thread := some 0 } ∧
    ({ State.statics with lock := [0, 0], vice_thread := some 0 } : State).HeldBy 0 2 ∧
    (mainlock_yield_begin .done).run 0
        { State.statics with lock := [0, 0], vice_thread := some 0 }
      = .returned { State.statics with lock := [0], vice_thread := some 0 } ∧
    ¬ ({ State.statics with lock := [0], vice_thread := some 0 } : State).Free ∧
    pthread_mutex_available 1 { State.statics with lock := [0], vice_thread := some 0 }
      = false :=
  ⟨rfl, by decide, rfl, by decide, rfl⟩

/-- C16, amended. For every thread `t` holding the mutex with recursion count `n ≥ 1`,
`mainlock_yield_begin` returns after a single atomic effect (the unlock: no sleep, no
wait, no read of a flag) in the prior state with the recursion count at `n - 1`, both
flags and `vice_thread` as before; the mutex is then free exactly when `n = 1`, and in
that case it is available to every thread. -/
theorem yield_begin_unlocks_once (t : Tid) (s : State) (n : Nat) (h : s.HeldBy t n) :
    (mainlock_yield_begin .done).run t s
      = .returned { s with lock := List.replicate (n - 1) t } ∧
    (mainlock_yield_begin .done).trace t s = [{ s with lock := List.replicate (n - 1) t }] ∧
    (({ s with lock := List.replicate (n - 1) t } : State).Free ↔ n = 1) ∧
    (n = 1 → ∀ u, pthread_mutex_available u { s with lock := List.replicate (n - 1) t }
      = true) := by
  have h0 := h.1
  refine ⟨?_, ?_, ?_, ?_⟩
  · simp [mainlock_yield_begin, Prog.run, pthread_mutex_unlock, h.2]
  · simp [mainlock_yield_begin, Prog.trace, pthread_mutex_unlock, h.2]
  · simp only [State.Free, List.replicate_eq_nil_iff]
    omega
  · rintro rfl u
    simp [pthread_mutex_available]

/-- Witness for `yield_begin_unlocks_once`: the vice thread 0 holding the mutex once. -/
theorem yield_begin_unlocks_once_witness :
    (mainlock_yield_begin .done).run 0 { State.statics with lock := [0], vice_thread := some 0 }
      = .returned { State.statics with lock := [], vice_thread := some 0 } ∧
    (mainlock_yield_begin .done).trace 0
        { State.statics with lock := [0], vice_thread := some 0 }
      = [{ State.statics with lock := [], vice_thread := some 0 }] ∧
    (({ State.statics with lock := [], vice_thread := some 0 } : State).Free ↔ 1 = 1) ∧
    (1 = 1 → ∀ u, pthread_mutex_available u
        { State.statics with lock := [], vice_thread := some 0 } = true) :=
  yield_begin_unlocks_once 0 { State.statics with lock := [0], vice_thread := some 0 } 1
    (by decide)

/-- C17. For every thread `t` holding the mutex (recursion count `n ≥ 1`) in a state
with `vice_thread_keepalive` set, `mainlock_yield_begin` followed by `mainlock_yield_end`
on `t`, no other thread acting in between, returns in exactly the prior state; the only
states passed through are the unlocked one and the prior one, so no teardown runs. -/
theorem yield_begin_end_restores (t : Tid) (s : State) (n : Nat) (h : s.HeldBy t n)
    (hk : s.vice_thread_keepalive ≠ 0) :
    (mainlock_yield_begin (mainlock_yield_end .done)).run t s = .returned s ∧
    (mainlock_yield_begin (mainlock_yield_end .done)).trace t s
      = [pthread_mutex_unlock t s, s] := by
  obtain ⟨m, rfl⟩ : ∃ m, n = m + 1 := ⟨n - 1, by have := h.1; omega⟩
  have hl : s.lock = t :: List.replicate m t := by rw [h.2, List.replicate_succ]
  have hav : pthread_mutex_available t (pthread_mutex_unlock t s) = true := by
    simp [pthread_mutex_available, pthread_mutex_unlock, hl]
  have hs : pthread_mutex_grant t (pthread_mutex_unlock t s) = s := by
    cases s
    simp only [pthread_mutex_grant, pthread_mutex_unlock] at hl ⊢
    simp [hl]
  constructor
  · show (mainlock_yield_end .done).run t (pthread_mutex_unlock t s) = .returned s
    rw [run_yield_end, if_pos hav, if_neg (by simp [pthread_mutex_unlock, hk]), hs]
    rfl
  · simp [mainlock_yield_begin, mainlock_yield_end, consider_exit, Prog.trace, hav, hs,
      atomic_flag_check, hk]

/-- Witness for `yield_begin_end_restores`: the vice thread 0 holding the mutex once. -/
theorem yield_begin_end_restores_witness :
    (mainlock_yield_begin (mainlock_yield_end .done)).run 0
        { State.statics with lock := [0], vice_thread := some 0 }
      = .returned { State.statics with lock := [0], vice_thread := some 0 } ∧
    (mainlock_yield_begin (mainlock_yield_end .done)).trace 0
        { State.statics with lock := [0], vice_thread := some 0 }
      = [pthread_mutex_unlock 0 { State.statics with lock := [0], vice_thread := some 0 },
         { State.statics with lock := [0], vice_thread := some 0 }] :=
  yield_begin_end_restores 0 { State.statics with lock := [0], vice_thread := some 0 } 1
    (by decide) (by decide)

/-- C18, counterexample. `DEBUG` build: the vice thread 0 holds the mutex once and
calls `mainlock_release`, which prints and returns: the recursion count is still 1. -/
theorem release_debug_vice_thread_keeps :
    reachCalls true [.call 0 .set_vice_thread]
      = some { State.statics with lock := [0], vice_thread := some 0 } ∧
    ({ State.statics with lock := [0], vice_thread := some 0 } : State).HeldBy 0 1 ∧
    (mainlock_release true .done).run 0
        { State.statics with lock := [0], vice_thread := some 0 }
      = .returned { State.statics with
          lock := [0], vice_thread := some 0,
          log := ["FIXME! VICE thread is trying to release the mainlock!\n"] } ∧
    ({ State.statics with
        lock := [0], vice_thread := some 0,
        log := ["FIXME! VICE thread is trying to release the mainlock!\n"] } : State).count
      = 1 :=
  ⟨rfl, by decide, rfl, rfl⟩

/-- C18, amended. In a build without `DEBUG`, or for a thread `t` that is not the vice
thread: when `t` holds the mutex with recursion count `n ≥ 1`, `mainlock_release` called
by `t` returns in the prior state with the recursion count at `n - 1` (both flags and
`vice_thread` as before), and the mutex is then free exactly when `n = 1`. -/
theorem release_one_level (debug : Bool) (t : Tid) (s : State) (n : Nat)
    (h : s.HeldBy t n) (hd : debug = false ∨ mainlock_is_vice_thread t s = false) :
    (mainlock_release debug .done).run t s
      = .returned { s with lock := List.replicate (n - 1) t } ∧
    ({ s with lock := List.replicate (n - 1) t } : State).count = n - 1 ∧
    (({ s with lock := List.replicate (n - 1) t } : State).Free ↔ n = 1) := by
  have h0 := h.1
  refine ⟨?_, by simp [State.count], ?_⟩
  · rw [run_release debug t s .done hd]
    simp [Prog.run, h.2]
  · simp only [State.Free, List.replicate_eq_nil_iff]
    omega

/-- Witness for `release_one_level`: a `DEBUG` build, thread 1 (not the vice thread)
holds the mutex twice. -/
theorem release_one_level_witness :
    (mainlock_release true .done).run 1
        { State.statics with lock := [1, 1], vice_thread := some 0 }
      = .returned { State.statics with lock := [1], vice_thread := some 0 } ∧
    ({ State.statics with lock := [1], vice_thread := some 0 } : State).count = 2 - 1 ∧
    (({ State.statics with lock := [1], vice_thread := some 0 } : State).Free ↔ 2 = 1) :=
  release_one_level true 1 { State.statics with lock := [1, 1], vice_thread := some 0 } 2
    (by decide) (Or.inr rfl)

/-- C20, counterexample. `DEBUG` build: the vice thread 0 holds the mutex once and
calls `mainlock_obtain`, which prints and returns: thread 0 does not hold the mutex with
recursion count 2. -/
theorem obtain_debug_reentrant_uncounted :
    reachCalls true [.call 0 .set_vice_thread]
      = some { State.statics with lock := [0], vice_thread := some 0 } ∧
    ({ State.statics with lock := [0], vice_thread := some 0 } : State).HeldBy 0 1 ∧
    mainlock_is_vice_thread 0 { State.statics with lock := [0], vice_thread := some 0 }
      = true ∧
    (mainlock_obtain true .done).run 0
        { State.statics with lock := [0], vice_thread := some 0 }
      = .returned { State.statics with
          lock := [0], vice_thread := some 0,
          log := ["FIXME! VICE thread is trying to obtain the mainlock!\n"] } ∧
    ¬ ({ State.statics with
          lock := [0], vice_thread := some 0,
          log := ["FIXME! VICE thread is trying to obtain the mainlock!\n"] } : State).HeldBy 0
        (1 + 1) :=
  ⟨rfl, by decide, rfl, rfl, by decide⟩

/-- C20, amended. When the vice thread `w`, holding the mutex with recursion count
`n ≥ 1`, calls `mainlock_obtain`, the call returns without waiting in both builds, with
`w` still holding the mutex: with recursion count `n + 1` in the build without `DEBUG`,
and with the recursion count still `n` in the `DEBUG` build. -/
theorem obtain_vice_thread_reentrant (debug : Bool) (w : Tid) (s : State) (n : Nat)
    (h : s.HeldBy w n) (hw : mainlock_is_vice_thread w s = true) :
    ∃ s', (mainlock_obtain debug .done).run w s = .returned s' ∧
      s'.HeldBy w (if debug = true then n else n + 1) := by
  cases debug
  · refine ⟨{ s with lock := w :: s.lock, ui_waiting_for_vice_lock := 0 }, ?_, ?_⟩
    · rw [run_obtain false w s .done (available_of_heldBy h) (Or.inl rfl)]
      rfl
    · exact ⟨by simp, by simp [h.2, List.replicate_succ]⟩
  · refine ⟨printf "FIXME! VICE thread is trying to obtain the mainlock!\n" w s, ?_, ?_⟩
    · simp only [mainlock_is_vice_thread] at hw
      simp [mainlock_obtain, Prog.run, hw]
    · exact ⟨by simpa using h.1, by simpa [printf] using h.2⟩

/-- Witness for `obtain_vice_thread_reentrant`: the vice thread 0 holding the mutex
once, build without `DEBUG`. -/
theorem obtain_vice_thread_reentrant_witness :
    ∃ s', (mainlock_obtain false .done).run 0
        { State.statics with lock := [0], vice_thread := some 0 } = .returned s' ∧
      s'.HeldBy 0 (if false = true then 1 else 1 + 1) :=
  obtain_vice_thread_reentrant false 0
    { State.statics with lock := [0], vice_thread := some 0 } 1 (by decide) rfl

/-! ### Sequences of whole calls: the vice thread -/

theorem body_keepsViceThread (debug : Bool) (op : Op) (h : op ≠ .set_vice_thread) :
    (Op.body debug op).Forall KeepsViceThread := by
  cases op <;> cases debug <;>
    simp [Op.body, Prog.Forall, KeepsViceThread, mainlock_initiate_shutdown, mainlock_obtain,
      mainlock_release, mainlock_yield, mainlock_yield_begin, mainlock_yield_end,
      consider_exit, tick_sleep,
      atomic_flag_set, atomic_flag_clear, atomic_store, printf, log_message, log_error,
      archdep_thread_shutdown, archdep_sleep, pthread_mutex_unlock] at h ⊢

theorem Config.Steady.settle_steady {c : Config} (hc : c.Steady) (t : Tid) (p : Prog)
    (hp : p.Forall KeepsViceThread) :
    Config.Steady
      { st := (p.settle t c.st).2, thr := Function.update c.thr t (p.settle t c.st).1 } ∧
    (p.settle t c.st).2.vice_thread = c.st.vice_thread := by
  have h := Prog.settle_good (I := fun s => s.vice_thread = c.st.vice_thread)
    (P := KeepsViceThread) (fun f hf t s hs => (hf t s).trans hs)
    (fun t s hs _ => hs) t p c.st hp rfl
  refine ⟨fun u q hu => ?_, h.1⟩
  by_cases htu : u = t
  · subst htu
    simp only [Function.update_same] at hu
    exact h.2 q hu
  · simp only [Function.update_noteq htu] at hu
    exact hc u q hu

theorem Config.Steady.move_steady {debug : Bool} {c c1 : Config} {m : Move} (hc : c.Steady)
    (hm : adoptCalled [m] = false) (h : c.move debug m = some c1) :
    c1.Steady ∧ c1.st.vice_thread = c.st.vice_thread := by
  cases m with
  | call t op =>
    have hop : op ≠ .set_vice_thread := by
      rintro rfl
      simp [adoptCalled] at hm
    simp only [Config.move] at h
    split at h
    · injection h with h
      subst h
      exact hc.settle_steady t (op.body debug) (body_keepsViceThread debug op hop)
    · cases h
  | resume t =>
    simp only [Config.move] at h
    split at h
    · rename_i k hk
      split at h
      · injection h with h
        subst h
        exact hc.settle_steady t (.lock k) (hc t _ hk)
      · cases h
    · cases h

theorem Config.Steady.play_steady {debug : Bool} :
    ∀ (ms : List Move) (c c1 : Config), c.Steady → adoptCalled ms = false →
      c.play debug ms = some c1 → c1.st.vice_thread = c.st.vice_thread
  | [], c, c1, _, _, h => by
    simp only [Config.play, Option.some.injEq] at h
    rw [h]
  | m :: ms, c, c1, hc, hms, h => by
    simp only [Config.play] at h
    cases hn : c.move debug m with
    | none => simp [hn] at h
    | some c2 =>
      simp only [hn, Option.some_bind] at h
      have hm : adoptCalled [m] = false ∧ adoptCalled ms = false := by
        simp only [adoptCalled, List.any_cons, List.any_nil, Bool.or_false,
          Bool.or_eq_false_iff] at hms ⊢
        exact hms
      have h2 := hc.move_steady hm.1 hn
      rw [Config.Steady.play_steady ms c2 c1 h2.1 hm.2 h, h2.2]

theorem Config.Steady.adopt_steady {debug : Bool} {c c1 : Config} {w : Tid}
    (hc : c.Steady) (hav : pthread_mutex_available w c.st = true)
    (h : c.move debug (.call w .set_vice_thread) = some c1) :
    c1.Steady ∧ c1.st.vice_thread = some w := by
  simp only [Config.move] at h
  split at h
  · injection h with h
    subst h
    simp only [Op.body, mainlock_set_vice_thread, Prog.settle, hav, if_true]
    refine ⟨fun u q hu => ?_, rfl⟩
    by_cases huw : u = w
    · subst huw
      simp at hu
    · simp only [Function.update_noteq huw] at hu
      exact hc u q hu
  · cases h

/-- C13. From every configuration in which no call of `mainlock_set_vice_thread` is in
progress and the mutex is available to `w`: after `w` has called
`mainlock_set_vice_thread`, and after every further sequence of operations of any
threads that contains no call of `mainlock_set_vice_thread`, in either build,
`mainlock_is_vice_thread` evaluated on a thread `t` is true if and only if `t = w`. -/
theorem is_vice_thread_stable (debug : Bool) (w : Tid) (c : Config) (ms : List Move)
    (s' : State) (hc : c.Steady) (hav : pthread_mutex_available w c.st = true)
    (hms : adoptCalled ms = false)
    (h : (c.play debug (.call w .set_vice_thread :: ms)).map (fun c' => c'.st) = some s') :
    ∀ t, mainlock_is_vice_thread t s' = true ↔ t = w := by
  simp only [Option.map_eq_some', Config.play] at h
  obtain ⟨c2, hc2, rfl⟩ := h
  cases hn : c.move debug (.call w .set_vice_thread) with
  | none => simp [hn] at hc2
  | some c1 =>
    simp only [hn, Option.some_bind] at hc2
    have h1 := hc.adopt_steady hav hn
    have hv := h1.1.play_steady ms c1 c2 hms hc2
    intro t
    simp only [mainlock_is_vice_thread, pthread_equal, hv, h1.2, beq_iff_eq,
      Option.some.injEq]
    exact eq_comm

/-- Witness for `is_vice_thread_stable`: from the initialised mainlock thread 0 becomes
the vice thread, thread 1 requests the shutdown, thread 2 asks whether it is the vice
thread, and the `mainlock_yield` of thread 0 ends it. -/
theorem is_vice_thread_stable_witness :
    (mainlock_is_vice_thread 0
      { State.statics with
        lock := [], vice_thread := some 0, vice_thread_keepalive := 0,
        ui_waiting_for_vice_lock := 1, shutdowns := [0], sleeps := 1,
        log := ["VICE thread initiating shutdown", "VICE thread is exiting"] } = true
      ↔ 0 = 0) ∧
    (mainlock_is_vice_thread 2
      { State.statics with
        lock := [], vice_thread := some 0, vice_thread_keepalive := 0,
        ui_waiting_for_vice_lock := 1, shutdowns := [0], sleeps := 1,
        log := ["VICE thread initiating shutdown", "VICE thread is exiting"] } = true
      ↔ 2 = 0) :=
  ⟨is_vice_thread_stable false 0 Config.boot
      [.call 1 .initiate_shutdown, .call 2 .is_vice_thread, .call 0 .yield]
      { State.statics with
          lock := [], vice_thread := some 0, vice_thread_keepalive := 0,
          ui_waiting_for_vice_lock := 1, shutdowns := [0], sleeps := 1,
          log := ["VICE thread initiating shutdown", "VICE thread is exiting"] }
      (fun t p h => by simp [Config.boot] at h) rfl rfl rfl 0,
   is_vice_thread_stable false 0 Config.boot
      [.call 1 .initiate_shutdown, .call 2 .is_vice_thread, .call 0 .yield]
      { State.statics with
          lock := [], vice_thread := some 0, vice_thread_keepalive := 0,
          ui_waiting_for_vice_lock := 1, shutdowns := [0], sleeps := 1,
          log := ["VICE thread initiating shutdown", "VICE thread is exiting"] }
      (fun t p h => by simp [Config.boot] at h) rfl rfl rfl 2⟩

/-! ### Sequences of whole calls: the teardown -/

theorem summary_body (debug : Bool) (op : Op) (t : Tid) (s : State) :
    Summary (op = .set_vice_thread) t s ((op.body debug).settle t s) := by
  cases op <;> cases debug <;>
    simp only [Op.body, mainlock_set_vice_thread, mainlock_obtain, mainlock_release,
      mainlock_yield, mainlock_yield_begin, mainlock_yield_end, mainlock_initiate_shutdown,
      consider_exit, tick_sleep, Prog.settle, Summary, Wait.prog, if_true, if_false,
      Bool.false_eq_true] <;>
    (try split_ifs) <;>
    simp_all [pthread_equal, atomic_flag_check, mainlock_is_vice_thread,
      store_vice_thread, atomic_flag_set, atomic_flag_clear, atomic_store, printf, log_message,
      log_error, archdep_thread_shutdown, archdep_sleep, pthread_mutex_unlock,
      pthread_mutex_grant]

theorem summary_wait (k : Wait) (t : Tid) (s : State) :
    Summary (k = .set_vice_thread) t s (k.prog.settle t s) := by
  cases k <;>
    simp only [mainlock_set_vice_thread, mainlock_yield_end,
      consider_exit, Prog.settle, Summary, Wait.prog, if_true, if_false,
      Bool.false_eq_true] <;>
    (try split_ifs) <;>
    simp_all [pthread_equal, atomic_flag_check, mainlock_is_vice_thread,
      store_vice_thread, atomic_flag_set, atomic_flag_clear, atomic_store, printf, log_message,
      log_error, archdep_thread_shutdown, archdep_sleep, pthread_mutex_unlock,
      pthread_mutex_grant]

theorem Config.Single.update_single {w : Tid} {c : Config} (hc : c.Single w) {adopt : Prop}
    (t : Tid) (r : Thread × State) (ht : c.thr t ≠ .dead) (ha : adopt → t = w)
    (hr : Summary adopt t c.st r) :
    Config.Single w { st := r.2, thr := Function.update c.thr t r.1 } ∧
    (c.st.shutdowns = [w] → r.2.shutdowns = [w]) := by
  obtain ⟨h1, h2, h3⟩ := hc
  obtain ⟨r1, r2, r3⟩ := hr
  have htw : c.st.shutdowns = [w] → t ≠ w := by
    intro hs htw
    subst htw
    rcases h3 with h | h
    · rw [h] at hs
      cases hs
    · exact ht h.2.2
  have hvice : r.2.vice_thread = none ∨ r.2.vice_thread = some w := by
    rcases r2 with h | ⟨h, ha2⟩
    · rw [h]
      exact h2
    · rw [h, ha ha2]
      exact Or.inr rfl
  have hkeep : c.st.shutdowns = [w] → r.2.shutdowns = [w] := by
    intro hs
    rcases r3 with h | ⟨_, _, hv, _⟩
    · rw [h, hs]
    · exfalso
      rcases h2 with h | h
      · rw [h] at hv
        cases hv
      · rw [h] at hv
        injection hv with hv
        exact htw hs hv.symm
  refine ⟨⟨fun u p hu => ?_, hvice, ?_⟩, hkeep⟩
  · by_cases hut : u = t
    · subst hut
      simp only [Function.update_same] at hu
      rcases r1 with h | h | h | h | ⟨h, ha2⟩
      · rw [h] at hu
        cases hu
      · rw [h] at hu
        cases hu
      · rw [h] at hu
        injection hu with hu
        exact ⟨.yield_end, hu.symm, fun hk => by cases hk⟩
      · rw [h] at hu
        injection hu with hu
        exact ⟨.obtain, hu.symm, fun hk => by cases hk⟩
      · rw [h] at hu
        injection hu with hu
        exact ⟨.set_vice_thread, hu.symm, fun _ => ha ha2⟩
    · simp only [Function.update_noteq hut] at hu
      exact h1 u p hu
  · rcases h3 with h | ⟨hs, hv, hd⟩
    · rcases r3 with h' | ⟨h', hdead, hv, hv'⟩
      · left
        show r.2.shutdowns = []
        rw [h', h]
      · right
        have htw2 : t = w := by
          rcases h2 with h2 | h2
          · rw [h2] at hv
            cases hv
          · rw [h2] at hv
            injection hv with hv
            exact hv.symm
        subst htw2
        refine ⟨by show r.2.shutdowns = [t]; rw [h', h]; rfl, hv', ?_⟩
        show Function.update c.thr t r.1 t = .dead
        rw [Function.update_same, hdead]
    · right
      have hne := htw hs
      refine ⟨hkeep hs, ?_, ?_⟩
      · show r.2.vice_thread = some w
        rcases r2 with h | ⟨_, ha2⟩
        · rw [h, hv]
        · exact absurd (ha ha2) hne
      · show Function.update c.thr t r.1 w = .dead
        rw [Function.update_noteq (Ne.symm hne), hd]

theorem Config.Single.move_single {debug : Bool} {w : Tid} {c c1 : Config} {m : Move}
    (hc : c.Single w) (hm : adoptedOnlyBy w [m] = true) (h : c.move debug m = some c1) :
    c1.Single w ∧ (c.st.shutdowns = [w] → c1.st.shutdowns = [w]) := by
  cases m with
  | call t op =>
    simp only [Config.move] at h
    split at h
    · rename_i hidle
      injection h with h
      subst h
      refine hc.update_single t _ (by rw [hidle]; exact fun h => by cases h) ?_
        (summary_body debug op t c.st)
      rintro rfl
      simpa [adoptedOnlyBy] using hm
    · cases h
  | resume t =>
    simp only [Config.move] at h
    split at h
    · rename_i k hk
      split at h
      · injection h with h
        subst h
        obtain ⟨k', hk', hw⟩ := hc.1 t _ hk
        rw [hk']
        exact hc.update_single t _ (by rw [hk]; exact fun h => by cases h) hw
          (summary_wait k' t c.st)
      · cases h
    · cases h

theorem Config.Single.play_single {debug : Bool} {w : Tid} :
    ∀ (ms : List Move) (c c1 : Config), c.Single w → adoptedOnlyBy w ms = true →
      c.play debug ms = some c1 →
      c1.Single w ∧ (c.st.shutdowns = [w] → c1.st.shutdowns = [w])
  | [], c, c1, hc, _, h => by
    simp only [Config.play, Option.some.injEq] at h
    subst h
    exact ⟨hc, id⟩
  | m :: ms, c, c1, hc, hms, h => by
    simp only [Config.play] at h
    cases hn : c.move debug m with
    | none => simp [hn] at h
    | some c2 =>
      simp only [hn, Option.some_bind] at h
      have hm : adoptedOnlyBy w [m] = true ∧ adoptedOnlyBy w ms = true := by
        simp only [adoptedOnlyBy, List.all_cons, List.all_nil, Bool.and_true,
          Bool.and_eq_true] at hms ⊢
        exact hms
      have h2 := hc.move_single hm.1 hn
      have h3 := Config.Single.play_single ms c2 c1 h2.1 hm.2 h
      exact ⟨h3.1, fun hs => h3.2 (h2.2 hs)⟩

theorem Config.play_append (debug : Bool) :
    ∀ (ms ms' : List Move) (c : Config),
      c.play debug (ms ++ ms') = (c.play debug ms).bind (fun c1 => c1.play debug ms')
  | [], _, _ => rfl
  | m :: ms, ms', c => by
    simp only [List.cons_append, Config.play]
    cases c.move debug m with
    | none => rfl
    | some c2 => simpa using Config.play_append debug ms ms' c2

theorem Config.boot_single (w : Tid) : Config.boot.Single w :=
  ⟨fun u p hu => by simp [Config.boot] at hu, Or.inl rfl, Or.inl rfl⟩

/-- C19. Over every sequence of operations from the initialised mainlock, in either
build, with `w` the one thread that calls `mainlock_set_vice_thread` (a call of it by a
second thread is outside the contract of the operation): `archdep_thread_shutdown` has
run at most once (the list of its runs is empty or `[w]`); if it has run, it ran on `w`
and `w` is the vice thread; and once it has run, no further sequence of operations,
`mainlock_initiate_shutdown`, `mainlock_yield` and `mainlock_yield_end` among them,
runs it again. -/
theorem teardown_at_most_once (debug : Bool) (w : Tid) (ms ms' : List Move) (s s' : State)
    (ha : adoptedOnlyBy w (ms ++ ms') = true)
    (h : reachCalls debug ms = some s) (h' : reachCalls debug (ms ++ ms') = some s') :
    (s.shutdowns = [] ∨ s.shutdowns = [w]) ∧
    (s.shutdowns = [w] → s.vice_thread = some w) ∧
    (s.shutdowns = [w] → s'.shutdowns = [w]) := by
  have ha2 : adoptedOnlyBy w ms = true ∧ adoptedOnlyBy w ms' = true := by
    simpa [adoptedOnlyBy, List.all_append] using ha
  simp only [reachCalls, Option.map_eq_some'] at h h'
  obtain ⟨c, hc, rfl⟩ := h
  obtain ⟨c', hc', rfl⟩ := h'
  rw [Config.play_append, hc] at hc'
  have h1 := (Config.boot_single w).play_single ms _ c ha2.1 hc
  have h2 := h1.1.play_single ms' c c' ha2.2 hc'
  refine ⟨?_, ?_, h2.2⟩
  · rcases h1.1.2.2 with h | h
    · exact Or.inl h
    · exact Or.inr h.1
  · intro hs
    rcases h1.1.2.2 with h | h
    · rw [h] at hs
      cases hs
    · exact h.2.1

/-- Witness for `teardown_at_most_once`: thread 0 becomes the vice thread, thread 1
requests the shutdown, the `mainlock_yield_end` of thread 0 runs the teardown and ends
it; then thread 1 requests the shutdown again and obtains the mainlock. -/
theorem teardown_at_most_once_witness :
    (([0] : List Tid) = [] ∨ ([0] : List Tid) = [0]) ∧
    (([0] : List Tid) = [0] → (some 0 : Option Tid) = some 0) ∧
    (([0] : List Tid) = [0] → ([0] : List Tid) = [0]) :=
  teardown_at_most_once false 0
    [.call 0 .set_vice_thread, .call 0 .yield_begin, .call 1 .initiate_shutdown,
      .call 0 .yield_end]
    [.call 1 .initiate_shutdown, .call 1 .obtain]
    { State.statics with
        vice_thread := some 0, vice_thread_keepalive := 0, ui_waiting_for_vice_lock := 1,
        shutdowns := [0],
        log := ["VICE thread initiating shutdown", "VICE thread is exiting"] }
    { State.statics with
        lock := [1], vice_thread := some 0, vice_thread_keepalive := 0,
        shutdowns := [0],
        log := ["VICE thread initiating shutdown", "VICE thread is exiting"] }
    rfl rfl rfl

/-! ### Calls on the wrong thread in a `DEBUG` build -/

/-- C23, counterexample. `DEBUG` build, thread 0 the vice thread holding the mutex once:
`mainlock_obtain` and `mainlock_release` called on thread 0 each print a message and
return to their caller, the mutex and the flags being as before; the thread is not
ended and nothing stops the program. -/
theorem debug_wrong_thread_returns :
    reachCalls true [.call 0 .set_vice_thread]
      = some { State.statics with lock := [0], vice_thread := some 0 } ∧
    mainlock_is_vice_thread 0 { State.statics with lock := [0], vice_thread := some 0 }
      = true ∧
    (mainlock_obtain true .done).run 0
        { State.statics with lock := [0], vice_thread := some 0 }
      = .returned { State.statics with
          lock := [0], vice_thread := some 0,
          log := ["FIXME! VICE thread is trying to obtain the mainlock!\n"] } ∧
    (mainlock_release true .done).run 0
        { State.statics with lock := [0], vice_thread := some 0 }
      = .returned { State.statics with
          lock := [0], vice_thread := some 0,
          log := ["FIXME! VICE thread is trying to release the mainlock!\n"] } :=
  ⟨rfl, rfl, rfl, rfl⟩

/-- C23, amended. In a `DEBUG` build, in every state, `mainlock_obtain` and
`mainlock_release` called on the vice thread print a `FIXME` message and return to
their caller in the prior state with that message added: no lock or unlock is made, no
flag is written, and the call does not end the thread. -/
theorem debug_wrong_thread_prints (w : Tid) (s : State)
    (hw : mainlock_is_vice_thread w s = true) :
    (mainlock_obtain true .done).run w s
      = .returned { s with
          log := s.log ++ ["FIXME! VICE thread is trying to obtain the mainlock!\n"] } ∧
    (mainlock_release true .done).run w s
      = .returned { s with
          log := s.log ++ ["FIXME! VICE thread is trying to release the mainlock!\n"] } := by
  simp only [mainlock_is_vice_thread] at hw
  constructor
  · simp [mainlock_obtain, Prog.run, hw, printf]
  · simp [mainlock_release, Prog.run, hw, printf]

/-- Witness for `debug_wrong_thread_prints`: the vice thread 0 holding the mutex once. -/
theorem debug_wrong_thread_prints_witness :
    (mainlock_obtain true .done).run 0
        { State.statics with lock := [0], vice_thread := some 0 }
      = .returned { State.statics with
          lock := [0], vice_thread := some 0,
          log := [] ++ ["FIXME! VICE thread is trying to obtain the mainlock!\n"] } ∧
    (mainlock_release true .done).run 0
        { State.statics with lock := [0], vice_thread := some 0 }
      = .returned { State.statics with
          lock := [0], vice_thread := some 0,
          log := [] ++ ["FIXME! VICE thread is trying to release the mainlock!\n"] } :=
  debug_wrong_thread_prints 0 { State.statics with lock := [0], vice_thread := some 0 } rfl

end Mainlock

namespace Hotkeys

/-! ### `vhkkeysyms.c`: modifier names -/

/-- The text `vhk_modmask_name` spells for a mask: `<name>` for every selected entry,
in table order. -/
theorem names_length_eq (mask : Nat) :
    ∀ (tbl : List vhk_modifier_t) (len : Nat),
      names_length mask tbl len
        = len + ((tbl.filter (selected mask)).map (fun m => strlen m.name + 2)).sum
  | [], len => by simp [names_length]
  | m :: ms, len => by
    rw [names_length, names_length_eq mask ms]
    by_cases h : mask &&& m.mask = 0
    · simp [h, selected]
    · simp [h, selected]
      omega

theorem length_spelled (mask : Nat) (tbl : List vhk_modifier_t) :
    ((tbl.filter (selected mask)).flatMap bracketed).length
      = ((tbl.filter (selected mask)).map (fun m => strlen m.name + 2)).sum := by
  induction tbl.filter (selected mask) with
  | nil => rfl
  | cons m ms ih =>
    simp only [List.flatMap_cons, List.length_append, ih, List.map_cons, List.sum_cons]
    simp [bracketed, strlen]

theorem poke_filled (pre : List Char) (r w : Nat) (c : Char) :
    poke { bytes := pre.map some ++ List.replicate (r + 1) none, writes := w } pre.length c
      = some { bytes := (pre ++ [c]).map some ++ List.replicate r none, writes := w + 1 } := by
  have hlt : pre.length < (pre.map some ++ List.replicate (r + 1) (none : Option Char)).length := by
    simp
  simp only [poke, hlt, if_true, Option.some.injEq, Block.mk.injEq, and_true]
  rw [List.set_append_right _ _ (by simp)]
  simp [List.replicate_succ]

theorem memcpy_filled :
    ∀ (src pre : List Char) (r w : Nat),
      memcpy { bytes := pre.map some ++ List.replicate (src.length + r) none, writes := w }
          pre.length src
        = some { bytes := (pre ++ src).map some ++ List.replicate r none,
                 writes := w + src.length }
  | [], pre, r, w => by simp [memcpy]
  | c :: cs, pre, r, w => by
    have h1 : (c :: cs).length + r = (cs.length + r) + 1 := by simp; omega
    rw [memcpy, h1, poke_filled, Option.some_bind]
    have h2 := memcpy_filled cs (pre ++ [c]) r (w + 1)
    simp only [List.length_append, List.length_singleton] at h2
    rw [h2]
    simp
    omega

theorem add_names_filled (mask : Nat) :
    ∀ (tbl : List vhk_modifier_t) (pre : List Char) (r w : Nat),
      add_names mask tbl
          { bytes := pre.map some
              ++ List.replicate (((tbl.filter (selected mask)).flatMap bracketed).length + r) none,
            writes := w } pre.length
        = some ({ bytes := (pre ++ (tbl.filter (selected mask)).flatMap bracketed).map some
                    ++ List.replicate r none,
                  writes := w + ((tbl.filter (selected mask)).flatMap bracketed).length },
                pre.length + ((tbl.filter (selected mask)).flatMap bracketed).length)
  | [], pre, r, w => by simp [add_names]
  | m :: ms, pre, r, w => by
    by_cases h : mask &&& m.mask = 0
    · have hs : selected mask m = false := by simp [selected, h]
      rw [add_names, if_neg (by simpa using h)]
      simp only [List.filter_cons, hs, Bool.false_eq_true, if_false]
      exact add_names_filled mask ms pre r w
    · have hs : selected mask m = true := by simp [selected, h]
      rw [add_names, if_pos h]
      simp only [List.filter_cons, hs, if_true, List.flatMap_cons]
      have hlen : (bracketed m ++ (ms.filter (selected mask)).flatMap bracketed).length + r
          = (m.name.length
              + ((((ms.filter (selected mask)).flatMap bracketed).length + r) + 1)) + 1 := by
        simp [bracketed]
        omega
      rw [hlen, poke_filled, Option.some_bind]
      have h2 := memcpy_filled m.name (pre ++ [VHK_MODIFIER_OPEN])
        ((((ms.filter (selected mask)).flatMap bracketed).length + r) + 1) (w + 1)
      simp only [List.length_append, List.length_singleton] at h2
      rw [h2, Option.some_bind]
      have h3 := poke_filled (pre ++ [VHK_MODIFIER_OPEN] ++ m.name)
        (((ms.filter (selected mask)).flatMap bracketed).length + r) (w + 1 + m.name.length)
        VHK_MODIFIER_CLOSE
      simp only [List.length_append, List.length_singleton] at h3
      simp only [strlen]
      rw [h3, Option.some_bind]
      have h4 := add_names_filled mask ms
        (pre ++ [VHK_MODIFIER_OPEN] ++ m.name ++ [VHK_MODIFIER_CLOSE]) r
        (w + 1 + m.name.length + 1)
      simp only [List.length_append, List.length_singleton] at h4
      rw [h4]
      simp [bracketed]
      omega


/-- The text `vhk_modmask_name` spells: `<name>` for every selected entry, in table
order, followed by the nul; every byte of the block written once. -/
theorem vhk_modmask_name_eq (M : Masks) (mask : Nat) :
    vhk_modmask_name M mask
      = some { bytes := ((((vhk_modifier_list M).filter (selected mask)).flatMap bracketed)
                  ++ ['\x00']).map some,
               writes := (((vhk_modifier_list M).filter (selected mask)).flatMap
                  bracketed).length + 1 } := by
  by_cases h0 : mask = VHK_MOD_NONE
  · have hsel : (vhk_modifier_list M).filter (selected mask) = [] := by
      rw [List.filter_eq_nil_iff]
      intro m _
      simp [selected, h0, VHK_MOD_NONE]
    rw [vhk_modmask_name, if_pos h0, hsel]
    rfl
  · rw [vhk_modmask_name, if_neg h0]
    simp only [names_length_eq, Nat.zero_add, ← length_spelled]
    have h := add_names_filled mask (vhk_modifier_list M) [] 1 0
    simp only [List.map_nil, List.nil_append, List.length_nil, Nat.zero_add] at h
    rw [lib_malloc, h, Option.some_bind]
    have h2 := poke_filled ((((vhk_modifier_list M).filter (selected mask)).flatMap bracketed))
      0 (((vhk_modifier_list M).filter (selected mask)).flatMap bracketed).length '\x00'
    simpa using h2

theorem c_str_append_nul :
    ∀ (s : List Char), '\x00' ∉ s → c_str ((s ++ ['\x00']).map some) = some s
  | [], _ => by simp [c_str]
  | c :: cs, h => by
    have hc : c ≠ '\x00' := fun e => h (by simp [e])
    have hcs : '\x00' ∉ cs := fun e => h (List.mem_cons_of_mem _ e)
    have ih := c_str_append_nul cs hcs
    simp only [List.map_append, List.map_cons, List.map_nil] at ih
    simp [c_str, hc, ih]

theorem nul_not_mem_name (M : Masks) :
    ∀ m ∈ vhk_modifier_list M, '\x00' ∉ m.name := by
  intro m hm
  simp only [vhk_modifier_list, List.mem_cons, List.mem_singleton, List.not_mem_nil,
    or_false] at hm
  rcases hm with h | h | h | h | h | h | h | h <;> subst h <;> dsimp only <;> decide

theorem nul_not_mem_spelled (M : Masks) (mask : Nat) :
    '\x00' ∉ ((vhk_modifier_list M).filter (selected mask)).flatMap bracketed := by
  intro h
  rw [List.mem_flatMap] at h
  obtain ⟨m, hm, hc⟩ := h
  have hn := nul_not_mem_name M m (List.mem_of_mem_filter hm)
  simp only [bracketed, List.mem_cons, List.mem_append, List.mem_singleton] at hc
  rcases hc with (h | h) | h
  · exact absurd h (by decide)
  · exact hn h
  · exact absurd h (by decide)

theorem scan_spec :
    ∀ (s name : List Char) (k : Nat), '\x00' ∉ s → '\x00' ∉ name →
      (if deref (scan s name k).2.1 = '\x00' ∧
          (deref (scan s name k).2.2 = '\x00' ∨ deref (scan s name k).2.2 = VHK_MODIFIER_CLOSE)
        then some (scan s name k).1 else none)
      = if s.map tolower = (name.takeWhile (fun c => c != VHK_MODIFIER_CLOSE)).map tolower
        then some (k + s.length) else none
  | [], [], k, _, _ => by simp [scan, deref]
  | [], d :: name, k, _, hn => by
    have hd : d ≠ '\x00' := fun e => hn (by simp [e])
    by_cases hc : d = VHK_MODIFIER_CLOSE
    · simp [scan, deref, hc]
    · simp [scan, deref, hc, hd, List.takeWhile_cons]
  | c :: s, [], k, hs, _ => by
    have hc : c ≠ '\x00' := fun e => hs (by simp [e])
    simp [scan, deref, hc]
  | c :: s, d :: name, k, hs, hn => by
    have hc : c ≠ '\x00' := fun e => hs (by simp [e])
    have hd : d ≠ '\x00' := fun e => hn (by simp [e])
    have hs' : '\x00' ∉ s := fun e => hs (List.mem_cons_of_mem _ e)
    have hn' : '\x00' ∉ name := fun e => hn (List.mem_cons_of_mem _ e)
    by_cases hcl : d = VHK_MODIFIER_CLOSE
    · simp [scan, deref, hc, hcl]
    · by_cases hl : tolower d = tolower c
      · have hcond : c ≠ '\x00' ∧ d ≠ '\x00' ∧ d ≠ VHK_MODIFIER_CLOSE ∧ tolower d = tolower c :=
          ⟨hc, hd, hcl, hl⟩
        rw [scan, if_pos hcond, scan_spec s name (k + 1) hs' hn']
        simp only [List.takeWhile_cons, bne_iff_ne, ne_eq, hcl, not_false_eq_true,
          decide_True, if_true, List.map_cons, List.cons.injEq, hl, true_and,
          List.length_cons]
        congr 1
        simp only [Option.some.injEq]
        omega
      · have hcond : ¬ (c ≠ '\x00' ∧ d ≠ '\x00' ∧ d ≠ VHK_MODIFIER_CLOSE ∧
            tolower d = tolower c) := fun h => hl h.2.2.2
        rw [scan, if_neg hcond]
        have hl' : ¬ tolower c = tolower d := fun e => hl e.symm
        simp [deref, hc, List.takeWhile_cons, hcl, hl']

theorem match_modifier_eq (m : vhk_modifier_t) (name : List Char)
    (hs : '\x00' ∉ m.name) (hn : '\x00' ∉ name) :
    match_modifier m name
      = if m.name.map tolower = (name.takeWhile (fun c => c != VHK_MODIFIER_CLOSE)).map tolower
        then some m.name.length else none := by
  have h := scan_spec m.name name 0 hs hn
  simp only [Nat.zero_add] at h
  exact h

theorem find_modifier_eq (name : List Char) (hn : '\x00' ∉ name) :
    ∀ (tbl : List vhk_modifier_t), (∀ m ∈ tbl, '\x00' ∉ m.name) →
      find_modifier name tbl
        = (tbl.find? (fun m => m.name.map tolower
              == (name.takeWhile (fun c => c != VHK_MODIFIER_CLOSE)).map tolower)).map
            (fun m => (m, m.name.length))
  | [], _ => rfl
  | m :: ms, h => by
    rw [find_modifier, match_modifier_eq m name (h m (List.mem_cons_self _ _)) hn]
    by_cases heq : m.name.map tolower
        = (name.takeWhile (fun c => c != VHK_MODIFIER_CLOSE)).map tolower
    · simp [heq, List.find?_cons]
    · have hb : (m.name.map tolower
          == (name.takeWhile (fun c => c != VHK_MODIFIER_CLOSE)).map tolower) = false := by
        simpa using heq
      simp only [heq, if_false, List.find?_cons, hb]
      exact find_modifier_eq name hn ms (fun m' hm' => h m' (List.mem_cons_of_mem _ hm'))

/-- The mask `vhk_modifier_from_name` returns for a non-empty string. -/
theorem vhk_modifier_from_name_eq (M : Masks) (name : List Char) (endptr : Bool)
    (hne : name ≠ []) (hn : '\x00' ∉ name) :
    vhk_modifier_from_name M (some name) endptr
      = match (vhk_modifier_list M).find?
            (fun m => m.name.map tolower == (token name).map tolower) with
        | some m =>
            (m.mask,
             if endptr then
               some (.offset ((if deref name = VHK_MODIFIER_OPEN then 1 else 0) + m.name.length))
             else none)
        | none => (VHK_MOD_NONE, none) := by
  have hd : deref name ≠ '\x00' := by
    cases name with
    | nil => exact absurd rfl hne
    | cons c cs =>
      intro e
      exact hn (by simp [deref] at e; simp [e])
  have hdrop : ∀ j, '\x00' ∉ name.drop j := fun j e => hn (List.mem_of_mem_drop e)
  simp only [vhk_modifier_from_name, hd, if_false]
  rw [find_modifier_eq _ (hdrop _) _ (nul_not_mem_name M)]
  have htok : token name = (name.drop (if deref name = VHK_MODIFIER_OPEN then 1 else 0)).takeWhile
      (fun c => c != VHK_MODIFIER_CLOSE) := by
    simp only [token]
    split <;> simp
  rw [htok]
  cases (vhk_modifier_list M).find? (fun m => m.name.map tolower
      == ((name.drop (if deref name = VHK_MODIFIER_OPEN then 1 else 0)).takeWhile
          (fun c => c != VHK_MODIFIER_CLOSE)).map tolower) <;> rfl

theorem from_name_bracketed (M : Masks) :
    ∀ m ∈ vhk_modifier_list M,
      vhk_modifier_from_name M (some (bracketed m)) true
        = (m.mask, some (.offset (m.name.length + 1))) := by
  intro m hm
  simp only [vhk_modifier_list, List.mem_cons, List.mem_singleton, List.not_mem_nil,
    or_false] at hm
  rcases hm with h | h | h | h | h | h | h | h <;> subst h <;> rfl

theorem spelled_single (M : Masks) (m : vhk_modifier_t) (hm : m ∈ vhk_modifier_list M)
    (h0 : m.mask ≠ 0)
    (hd : ∀ m' ∈ vhk_modifier_list M, m' ≠ m → m'.mask &&& m.mask = 0) :
    ((vhk_modifier_list M).filter (selected m.mask)).flatMap bracketed = bracketed m := by
  have hsel : ∀ m' ∈ vhk_modifier_list M, selected m.mask m' = decide (m' = m) := by
    intro m' hm'
    by_cases he : m' = m
    · subst he
      simp [selected, h0]
    · have := hd m' hm' he
      rw [Nat.land_comm] at this
      simp [selected, this, he]
  have hfil : (vhk_modifier_list M).filter (selected m.mask)
      = (vhk_modifier_list M).filter (fun m' => decide (m' = m)) :=
    List.filter_congr hsel
  rw [hfil]
  simp only [vhk_modifier_list, List.mem_cons, List.mem_singleton, List.not_mem_nil,
    or_false] at hm
  rcases hm with h | h | h | h | h | h | h | h <;> subst h <;>
    simp [vhk_modifier_list, List.filter, vhk_modifier_t.mk.injEq]

/-- C21. For every mask, `vhk_modmask_name` returns a block holding the C string made
of `<name>` for exactly the entries of `vhk_modifier_list` with
`vice_modmask & mask != 0`, in table order; the names of the table are, in order, Alt,
Command, Control, Hyper, Meta, Option, Shift, Super; for `VHK_MOD_NONE` the string is
empty. -/
theorem modmask_name_spelling (M : Masks) (vice_modmask : Nat) :
    ∃ b, vhk_modmask_name M vice_modmask = some b ∧
      c_str b.bytes
        = some (((vhk_modifier_list M).filter (selected vice_modmask)).flatMap bracketed) ∧
      (vice_modmask = VHK_MOD_NONE → c_str b.bytes = some []) ∧
      (vhk_modifier_list M).map (fun m => m.name)
        = ["Alt", "Command", "Control", "Hyper", "Meta", "Option", "Shift",
            "Super"].map String.toList := by
  refine ⟨_, vhk_modmask_name_eq M vice_modmask,
    c_str_append_nul _ (nul_not_mem_spelled M vice_modmask), fun h0 => ?_, rfl⟩
  have hsel : (vhk_modifier_list M).filter (selected vice_modmask) = [] := by
    rw [List.filter_eq_nil_iff]
    intro m _
    simp [selected, h0, VHK_MOD_NONE]
  rw [c_str_append_nul _ (nul_not_mem_spelled M vice_modmask), hsel]
  rfl

/-- C22, the code at the failing input. For the name `Foo`, which matches no modifier,
and a non-null `endptr`, `vhk_modifier_from_name` returns `VHK_MOD_NONE` and stores
nothing in `*endptr`; for the empty name it stores `name`, and for `Alt>x` it stores
the position of the `>`. -/
theorem modifier_from_name_no_match_endptr (M : Masks) :
    vhk_modifier_from_name M (some "Foo".toList) true = (VHK_MOD_NONE, none) ∧
    vhk_modifier_from_name M (some []) true = (VHK_MOD_NONE, some (.offset 0)) ∧
    vhk_modifier_from_name M (some "Alt>x".toList) true
      = (M.VHK_MOD_ALT, some (.offset 3)) :=
  ⟨rfl, rfl, rfl⟩

/-! ### The comparison of the code and equality ignoring ASCII case -/

theorem toNat_ofNat_add_32 (n : Nat) (h1 : 65 ≤ n) (h2 : n ≤ 90) :
    (Char.ofNat (n + 32)).toNat = n + 32 := by
  interval_cases n <;> rfl

theorem tolower_upper (a : Char) (h : 65 ≤ a.toNat ∧ a.toNat ≤ 90) :
    tolower a = Char.ofNat (a.toNat + 32) := by
  simp [tolower, Char.toLower, h]

theorem tolower_other (a : Char) (h : ¬ (65 ≤ a.toNat ∧ a.toNat ≤ 90)) :
    tolower a = a := by
  simp only [tolower, Char.toLower]
  rw [if_neg]
  simpa using h

theorem char_eq_of_toNat (a b : Char) (h : a.toNat = b.toNat) : a = b := by
  apply Char.ext
  apply UInt32.ext
  exact h

theorem tolower_eq_iff (a b : Char) :
    tolower a = tolower b ↔ same_ignoring_ascii_case a b = true := by
  by_cases ha : 65 ≤ a.toNat ∧ a.toNat ≤ 90 <;> by_cases hb : 65 ≤ b.toNat ∧ b.toNat ≤ 90
  · rw [tolower_upper a ha, tolower_upper b hb]
    constructor
    · intro h
      have h' := congrArg Char.toNat h
      rw [toNat_ofNat_add_32 _ ha.1 ha.2, toNat_ofNat_add_32 _ hb.1 hb.2] at h'
      have : a = b := char_eq_of_toNat a b (by omega)
      simp [same_ignoring_ascii_case, this]
    · intro h
      simp only [same_ignoring_ascii_case, Bool.or_eq_true, beq_iff_eq, Bool.and_eq_true,
        decide_eq_true_eq] at h
      rcases h with (h | h) | h
      · rw [h]
      · omega
      · omega
  · rw [tolower_upper a ha, tolower_other b hb]
    constructor
    · intro h
      have h' := congrArg Char.toNat h
      rw [toNat_ofNat_add_32 _ ha.1 ha.2] at h'
      simp [same_ignoring_ascii_case, ha, h'.symm]
    · intro h
      simp only [same_ignoring_ascii_case, Bool.or_eq_true, beq_iff_eq, Bool.and_eq_true,
        decide_eq_true_eq] at h
      rcases h with (h | h) | h
      · exact absurd (h ▸ ha) hb
      · apply char_eq_of_toNat
        rw [toNat_ofNat_add_32 _ ha.1 ha.2, h.2]
      · exact absurd h.1 hb
  · rw [tolower_other a ha, tolower_upper b hb]
    constructor
    · intro h
      have h' := congrArg Char.toNat h
      rw [toNat_ofNat_add_32 _ hb.1 hb.2] at h'
      simp [same_ignoring_ascii_case, hb, h']
    · intro h
      simp only [same_ignoring_ascii_case, Bool.or_eq_true, beq_iff_eq, Bool.and_eq_true,
        decide_eq_true_eq] at h
      rcases h with (h | h) | h
      · exact absurd (h ▸ hb) ha
      · exact absurd h.1 ha
      · apply char_eq_of_toNat
        rw [toNat_ofNat_add_32 _ hb.1 hb.2, h.2]
  · rw [tolower_other a ha, tolower_other b hb]
    constructor
    · intro h
      simp [same_ignoring_ascii_case, h]
    · intro h
      simp only [same_ignoring_ascii_case, Bool.or_eq_true, beq_iff_eq, Bool.and_eq_true,
        decide_eq_true_eq] at h
      rcases h with (h | h) | h
      · exact h
      · exact absurd h.1 ha
      · exact absurd h.1 hb

theorem map_tolower_eq_iff :
    ∀ (s r : List Char), s.map tolower = r.map tolower ↔ equal_ignoring_ascii_case s r = true
  | [], [] => by simp [equal_ignoring_ascii_case]
  | [], _ :: _ => by simp [equal_ignoring_ascii_case]
  | _ :: _, [] => by simp [equal_ignoring_ascii_case]
  | a :: s, b :: r => by
    simp only [List.map_cons, List.cons.injEq, equal_ignoring_ascii_case, Bool.and_eq_true,
      tolower_eq_iff a b, map_tolower_eq_iff s r]

theorem find_ignoring_case (tbl : List vhk_modifier_t) (tok : List Char) :
    tbl.find? (fun m => m.name.map tolower == tok.map tolower)
      = tbl.find? (fun m => equal_ignoring_ascii_case m.name tok) := by
  congr 1
  funext m
  rw [Bool.eq_iff_iff]
  simp [map_tolower_eq_iff]

/-- C24. For every non-empty C string `name` (no nul among its characters),
`vhk_modifier_from_name` returns the mask of the entry of `vhk_modifier_list` whose name
equals, ignoring ASCII case, the token of `name` (one leading `<` removed, cut at the
first `>` or at the end of the string), and `VHK_MOD_NONE` when no entry's name equals
it; the names of the table are pairwise different ignoring ASCII case, so there is at
most one such entry.  `Al` and `Alternate` give `VHK_MOD_NONE`; `aLT`, `<sHiFt>+a` and
`CONTROL>` give the masks of Alt, Shift and Control. -/
theorem modifier_from_name_token (M : Masks) (name : List Char) (endptr : Bool)
    (hne : name ≠ []) (hn : '\x00' ∉ name) :
    (vhk_modifier_from_name M (some name) endptr).1
      = (match (vhk_modifier_list M).find?
            (fun m => equal_ignoring_ascii_case m.name (token name)) with
         | some m => m.mask
         | none => VHK_MOD_NONE) ∧
    ((vhk_modifier_list M).map (fun m => m.name)).Pairwise
      (fun a b => equal_ignoring_ascii_case a b = false) ∧
    (vhk_modifier_from_name M (some "Al".toList) endptr).1 = VHK_MOD_NONE ∧
    (vhk_modifier_from_name M (some "Alternate".toList) endptr).1 = VHK_MOD_NONE ∧
    (vhk_modifier_from_name M (some "aLT".toList) endptr).1 = M.VHK_MOD_ALT ∧
    (vhk_modifier_from_name M (some "<sHiFt>+a".toList) endptr).1 = M.VHK_MOD_SHIFT ∧
    (vhk_modifier_from_name M (some "CONTROL>".toList) endptr).1 = M.VHK_MOD_CONTROL := by
  refine ⟨?_, by simp only [vhk_modifier_list, List.map]; decide, rfl, rfl, rfl, rfl, rfl⟩
  rw [vhk_modifier_from_name_eq M name endptr hne hn, find_ignoring_case]
  cases (vhk_modifier_list M).find?
    (fun m => equal_ignoring_ascii_case m.name (token name)) <;> rfl

/-- Witness for `modifier_from_name_token`: the name `<cOmMaNd>+q` with the sample
masks gives 2, the mask of Command. -/
theorem modifier_from_name_token_witness :
    (vhk_modifier_from_name Masks.sample (some "<cOmMaNd>+q".toList) true).1 = 2 ∧
    ((vhk_modifier_list Masks.sample).map (fun m => m.name)).Pairwise
      (fun a b => equal_ignoring_ascii_case a b = false) ∧
    (vhk_modifier_from_name Masks.sample (some "Al".toList) true).1 = VHK_MOD_NONE ∧
    (vhk_modifier_from_name Masks.sample (some "Alternate".toList) true).1 = VHK_MOD_NONE ∧
    (vhk_modifier_from_name Masks.sample (some "aLT".toList) true).1 = 1 ∧
    (vhk_modifier_from_name Masks.sample (some "<sHiFt>+a".toList) true).1 = 64 ∧
    (vhk_modifier_from_name Masks.sample (some "CONTROL>".toList) true).1 = 4 :=
  modifier_from_name_token Masks.sample "<cOmMaNd>+q".toList true (by decide) (by decide)

/-- C25. For every entry `m` of `vhk_modifier_list` whose mask is not 0 and has no bit
in common with the mask of another entry: `vhk_modmask_name` of `m.mask` returns the C
string `<name>` of `m`, and `vhk_modifier_from_name` applied to that string returns
`m.mask` and stores in `*endptr` the position of the last character of the string,
which is the closing `>`. -/
theorem modifier_round_trip (M : Masks) (m : vhk_modifier_t)
    (hm : m ∈ vhk_modifier_list M) (h0 : m.mask ≠ 0)
    (hd : ∀ m' ∈ vhk_modifier_list M, m' ≠ m → m'.mask &&& m.mask = 0) :
    ∃ b s, vhk_modmask_name M m.mask = some b ∧ c_str b.bytes = some s ∧
      s = bracketed m ∧
      vhk_modifier_from_name M (some s) true = (m.mask, some (.offset (s.length - 1))) ∧
      s[s.length - 1]? = some VHK_MODIFIER_CLOSE := by
  refine ⟨_, bracketed m, vhk_modmask_name_eq M m.mask, ?_, rfl, ?_, ?_⟩
  · rw [c_str_append_nul _ (nul_not_mem_spelled M m.mask), spelled_single M m hm h0 hd]
  · rw [from_name_bracketed M m hm]
    simp [bracketed]
  · simp [bracketed]

/-- Witness for `modifier_round_trip`: the entry `Shift` with the sample masks. -/
theorem modifier_round_trip_witness :
    ∃ b s, vhk_modmask_name Masks.sample 64 = some b ∧ c_str b.bytes = some s ∧
      s = "<Shift>".toList ∧
      vhk_modifier_from_name Masks.sample (some s) true = (64, some (.offset (s.length - 1))) ∧
      s[s.length - 1]? = some '>' :=
  modifier_round_trip Masks.sample
    { mask := 64, name := "Shift".toList, utf8 := "Shift ⇧".toList }
    (by decide) (by decide) (by decide)

/-- C28. For every mask, `vhk_modmask_name` makes no write outside the block it
allocated; the size of the block is the sum over the selected entries of
`strlen(name) + 2`, plus 1; the number of bytes written, the terminating nul included,
equals that size, and every byte of the block has been written. -/
theorem modmask_name_fills_block (M : Masks) (vice_modmask : Nat) :
    ∃ b, vhk_modmask_name M vice_modmask = some b ∧
      b.bytes.length
        = (((vhk_modifier_list M).filter (selected vice_modmask)).map
            (fun m => strlen m.name + 2)).sum + 1 ∧
      b.writes = b.bytes.length ∧
      ∀ x ∈ b.bytes, x ≠ none := by
  refine ⟨_, vhk_modmask_name_eq M vice_modmask, ?_, ?_, ?_⟩
  · simp only [List.length_map, List.length_append, List.length_singleton, length_spelled]
  · simp only [List.length_map, List.length_append, List.length_singleton]
  · intro x hx
    simp only [List.mem_map] at hx
    obtain ⟨c, _, rfl⟩ := hx
    exact fun h => by cases h

end Hotkeys

namespace Vicii

/-- C26. For every string `value` and every machine state, `border_set_func` returns
0; it sets `vicii_resources.border_mode` to `VICII_FULL_BORDERS` for `1` or `full`, to
`VICII_DEBUG_BORDERS` for `2` or `debug`, to `VICII_NO_BORDERS` for `3` or `none`, and
to `VICII_NORMAL_BORDERS` for every other string (so for `0`, `4` and `FULL`); it then
calls `machine_change_timing` once, with the value of the resource
`MachineVideoStandard` and that mode; the resources are as before. -/
theorem border_set_func_mode (B : BorderModes) (value : String) (m : Machine) :
    (border_set_func B value m).1 = 0 ∧
    (border_set_func B value m).2.border_mode
      = (if value = "1" ∨ value = "full" then B.VICII_FULL_BORDERS
         else if value = "2" ∨ value = "debug" then B.VICII_DEBUG_BORDERS
         else if value = "3" ∨ value = "none" then B.VICII_NO_BORDERS
         else B.VICII_NORMAL_BORDERS) ∧
    (border_set_func B value m).2.machine_change_timing
      = m.machine_change_timing ++
          [(resources_get_int m "MachineVideoStandard",
            (border_set_func B value m).2.border_mode)] ∧
    (border_set_func B value m).2.resources = m.resources ∧
    (border_set_func B "0" m).2.border_mode = B.VICII_NORMAL_BORDERS ∧
    (border_set_func B "4" m).2.border_mode = B.VICII_NORMAL_BORDERS ∧
    (border_set_func B "FULL" m).2.border_mode = B.VICII_NORMAL_BORDERS := by
  refine ⟨rfl, ?_, ?_, ?_, ?_, ?_, ?_⟩
  · simp only [border_set_func, strcmp_zero, Bool.or_eq_true, beq_iff_eq]
    split_ifs <;> rfl
  · simp only [border_set_func, strcmp_zero, Bool.or_eq_true, beq_iff_eq]
    split_ifs <;> rfl
  · simp only [border_set_func, strcmp_zero, Bool.or_eq_true, beq_iff_eq]
    split_ifs <;> rfl
  · simp [border_set_func, strcmp_zero]
  · simp [border_set_func, strcmp_zero]
  · simp [border_set_func, strcmp_zero]

end Vicii

namespace Vic20ui

/-- C27. Selecting each of the six entries of `common_memory_configurations_submenu`
that have a callback (null `call_data`) sets `RamBlock0`, `RamBlock1`, `RamBlock2`,
`RamBlock3` and `RamBlock5` to 1 for the blocks named in the label and to 0 for the
others, and sets nothing else; with a non-null `call_data` the callback makes no call
at all, whatever its `client_data`. -/
theorem common_memory_configurations :
    (select_each common_memory_configurations_submenu).map
        (fun r => (r.1, resources_set r.2))
      = [ ("No expansion memory",
            [("RamBlock0", 0), ("RamBlock1", 0), ("RamBlock2", 0), ("RamBlock3", 0),
             ("RamBlock5", 0)]),
          ("3K (block 0)",
            [("RamBlock0", 1), ("RamBlock1", 0), ("RamBlock2", 0), ("RamBlock3", 0),
             ("RamBlock5", 0)]),
          ("8K (block 1)",
            [("RamBlock0", 0), ("RamBlock1", 1), ("RamBlock2", 0), ("RamBlock3", 0),
             ("RamBlock5", 0)]),
          ("16K (blocks 1/2)",
            [("RamBlock0", 0), ("RamBlock1", 1), ("RamBlock2", 1), ("RamBlock3", 0),
             ("RamBlock5", 0)]),
          ("24K (blocks 1/2/3)",
            [("RamBlock0", 0), ("RamBlock1", 1), ("RamBlock2", 1), ("RamBlock3", 1),
             ("RamBlock5", 0)]),
          ("All (blocks 0/1/2/3/5)",
            [("RamBlock0", 1), ("RamBlock1", 1), ("RamBlock2", 1), ("RamBlock3", 1),
             ("RamBlock5", 1)]) ] ∧
    ∀ (client_data : Int) (p : Nat),
      set_common_memory_configuration client_data (some p) = [] :=
  ⟨by decide, fun _ _ => rfl⟩

end Vic20ui
